import Mathlib

/-!
Verification development for the Terrifyingworld "world threat" backend.

The repository ships two near-duplicate server variants concatenated in
`src/server.js`.  Following the specification (§9, "Design notes"), the
development below embeds the most complete variant: the second server
(single `activeThreat`, 30-minute cooldown, archive, admin endpoints,
per-agent `worldThreatModifiers`), paired with the configuration module
that exports the constants it imports
(`AGENT_HEALTH_LOSS_PER_MINUTE`, `AGENT_SANITY_LOSS_PER_MINUTE`,
`COOLDOWN_MINUTES_AFTER_END`), i.e. `src/unnamed/part_001`.

JavaScript numbers are modelled as `ℚ` throughout the state machine
(all reachable arithmetic there is finite); ISO timestamp strings are
modelled by their millisecond value.  For the power function, whose
claim is about non-finite propagation, a separate faithful model of
JavaScript number semantics (`JNum` with NaN and the infinities) is
used.
-/

namespace WorldThreat

/-! ## Constants (src/unnamed/part_001 — worldThreatConfig.js) -/

/-- Base progress % per second per point of agent power. -/
def WORLD_THREAT_BASE_PROGRESS_RATE : ℚ := 1/1000

/-- Per-agent health drain per minute. -/
def AGENT_HEALTH_LOSS_PER_MINUTE : ℚ := 1

/-- Per-agent sanity drain per minute. -/
def AGENT_SANITY_LOSS_PER_MINUTE : ℚ := 2

/-- Default lifetime (minutes) if a template does not specify one. -/
def DEFAULT_LIFETIME_MINUTES : ℚ := 180

/-- Cooldown minutes after a threat ends before auto-spawn is allowed. -/
def COOLDOWN_MINUTES_AFTER_END : ℚ := 30

/-- Server-side alias `WT_BASE_RATE = Number(WORLD_THREAT_BASE_PROGRESS_RATE ?? 0.001)`. -/
def WT_BASE_RATE : ℚ := WORLD_THREAT_BASE_PROGRESS_RATE

/-- Server-side alias `HP_LOSS_PER_MIN = Number(AGENT_HEALTH_LOSS_PER_MINUTE ?? 1)`. -/
def HP_LOSS_PER_MIN : ℚ := AGENT_HEALTH_LOSS_PER_MINUTE

/-- Server-side alias `SAN_LOSS_PER_MIN = Number(AGENT_SANITY_LOSS_PER_MINUTE ?? 2)`. -/
def SAN_LOSS_PER_MIN : ℚ := AGENT_SANITY_LOSS_PER_MINUTE

/-- Server-side alias `COOLDOWN_MIN = Number(COOLDOWN_MINUTES_AFTER_END ?? 30)`. -/
def COOLDOWN_MIN : ℚ := COOLDOWN_MINUTES_AFTER_END

/-! ## Data model -/

/-- Threat instance status: "active" | "cleared" | "expired". -/
inductive Status where
  | active
  | cleared
  | expired
deriving DecidableEq, Repr, Inhabited

/-- The optional `statModifiers` object copied into each snapshot
(unused by this server variant's power computation, but part of the
stored shape). -/
structure StatModifiers where
  courage : Option ℚ := none
  investigation : Option ℚ := none
  occultism : Option ℚ := none
deriving DecidableEq, Repr, Inhabited

/-- AgentSnapshot as stored inside an assignment bundle, restricted to
finite numeric values.  `Option ℚ` fields model values that may be
absent or non-numeric at the points the server guards them (`?? 0` for
health/sanity inside the tick, `typeof x === "number"` for the three
loss/power multipliers).  The source's guards pass truthy non-finite
submissions (JSON `1e999` → Infinity) through unchanged, so reachable
snapshots can also carry NaN/±Infinity; those states are modelled by
the JavaScript-value level (`JAgentState`, `tickThreatsJS`) further
below, and theorems over this ℚ level hold for the finite-valued
restriction they state. -/
structure AgentSnapshot where
  agentId : String
  name : String
  portraitUrl : String
  courage : ℚ
  investigation : ℚ
  occultism : ℚ
  health : Option ℚ
  sanity : Option ℚ
  skills : List String
  statModifiers : StatModifiers
  powerMultiplier : Option ℚ
  healthLossMultiplier : Option ℚ
  sanityLossMultiplier : Option ℚ
deriving DecidableEq, Repr, Inhabited

/-- One player's assignment bundle: `{ playerId, directorName, agents }`. -/
structure Bundle where
  playerId : String
  directorName : String
  agents : List AgentSnapshot
deriving DecidableEq, Repr, Inhabited

/-- A threat template from `threatTemplates`. -/
structure ThreatTemplate where
  id : String
  name : String
  description : String
  zone : String
  theme : String
  primaryStat : String
  skills : Option (List String)
  difficulty : Option ℚ
  lifetimeMinutes : Option ℚ
deriving DecidableEq, Repr, Inhabited

/-- A live (or archived) threat instance.  Timestamps are held as
millisecond values; `difficulty = none` models an absent/NaN value
(`Number(threat.difficulty)` not a usable number). -/
structure ThreatInstance where
  instanceId : String
  templateId : String
  name : String
  description : String
  zone : String
  theme : String
  primaryStat : String
  skills : List String
  difficulty : Option ℚ
  progress : ℚ
  status : Status
  assignedAgents : List Bundle
  createdAtMs : ℚ
  lastTickMs : ℚ
  expiresAtMs : ℚ
  eligibleForRewardByPlayerId : List String
  endedAtMs : Option ℚ
deriving DecidableEq, Repr, Inhabited

/-- The server's in-memory mutable state:
`activeThreat`, `finishedThreats`, `lastTickMs`, `cooldownUntilMs`. -/
structure ServerState where
  activeThreat : Option ThreatInstance
  finishedThreats : List ThreatInstance
  lastTickMs : ℚ
  cooldownUntilMs : ℚ
deriving DecidableEq, Repr, Inhabited

/-! ## Pure model functions (src/server.js, second variant) -/

/-- Difficulty easing, `getDifficultySpeed(threat)`:
`d = Math.max(1, Math.min(10, Number(threat.difficulty) || 10))`,
`1 + (10 - d) * EASY_SCALAR` with `EASY_SCALAR = 0.10`.
`none` models `Number(...)` being NaN (absent/invalid field); a stored
`0` is falsy in JavaScript, hence also replaced by 10 by `|| 10`. -/
def getDifficultySpeed (threat : ThreatInstance) : ℚ :=
  let n : ℚ := match threat.difficulty with
    | some q => if q = 0 then 10 else q
    | none => 10
  let d := max 1 (min 10 n)
  1 + (10 - d) * (1/10)

/-- Agent power, `computeAgentPower(agent, threat)`, restricted to
finite (`ℚ`-valued) snapshots.  `powerMultiplier = none` models
`typeof wtMods.powerMultiplier` not being "number" (defaulting to 1).
On non-finite snapshot values the source function returns NaN or
Infinity (`Math.max(0, NaN) = NaN`); that behaviour is modelled by the
full `computeAgentPower` over `JNum` below, of which this function is
the finite restriction. -/
def computeAgentPowerQ (agent : AgentSnapshot) (threat : ThreatInstance) : ℚ :=
  let c := agent.courage
  let i := agent.investigation
  let o := agent.occultism
  let primary :=
    if threat.primaryStat = "Courage" then c
    else if threat.primaryStat = "Investigation" then i
    else o
  let statSum := c + i + o
  let need := threat.skills
  let haveSkills := agent.skills
  let skillBonus : ℚ := 2 * (need.countP fun s => haveSkills.contains s)
  let basePower := primary * (3/2) + statSum * (3/5) + skillBonus
  let powerMult := agent.powerMultiplier.getD 1
  max 0 (basePower * powerMult)

/-- `createThreatInstance(template)` from worldThreatConfig.js, with the
current time and the random id suffix passed explicitly. -/
def createThreatInstance (template : ThreatTemplate) (nowMs : ℚ)
    (suffix : String) : ThreatInstance :=
  { instanceId := template.id ++ "-" ++ suffix
    templateId := template.id
    name := template.name
    description := template.description
    zone := template.zone
    theme := template.theme
    primaryStat := template.primaryStat
    skills := template.skills.getD []
    difficulty := some (template.difficulty.getD 10)
    progress := 0
    status := Status.active
    assignedAgents := []
    createdAtMs := nowMs
    lastTickMs := nowMs
    expiresAtMs := nowMs + (template.lifetimeMinutes.getD DEFAULT_LIFETIME_MINUTES) * 60 * 1000
    eligibleForRewardByPlayerId := []
    endedAtMs := none }

/-- `spawnThreat()`: pick a template (passed explicitly in place of
`rngPick(threatTemplates)`), create an instance, reset the tick clock. -/
def spawnThreat (s : ServerState) (nowMs : ℚ) (tmpl : ThreatTemplate)
    (suffix : String) : ServerState :=
  { s with activeThreat := some (createThreatInstance tmpl nowMs suffix)
           lastTickMs := nowMs }

/-- `buildEligibilityMap(threat)`: object keyed by each truthy
`playerId` among the assigned bundles (keys are unique). -/
def buildEligibilityMap (threat : ThreatInstance) : List String :=
  ((threat.assignedAgents.filter fun a => a.playerId ≠ "").map
    fun a => a.playerId).dedup

/-- `endActiveThreat(status)`: mark + archive the active threat (newest
first, archive trimmed to 50), clear `activeThreat`, start the cooldown. -/
def endActiveThreat (s : ServerState) (nowMs : ℚ) (status : Status) : ServerState :=
  match s.activeThreat with
  | none => s
  | some t =>
    let ended := { t with
      status := status
      eligibleForRewardByPlayerId := buildEligibilityMap t
      endedAtMs := some nowMs }
    { s with
      activeThreat := none
      finishedThreats := (ended :: s.finishedThreats).take 50
      cooldownUntilMs := nowMs + COOLDOWN_MIN * 60 * 1000 }

/-- Inner loop of the steady tick over one bundle's agents: drain
health/sanity, drop agents at `newHealth <= 0 || newSanity <= 0`, and
accumulate surviving post-drain power.  Mirrors the
`for (const agent of bundle.agents)` loop of `tickThreats`. -/
def tickAgents (t : ThreatInstance) (elapsedSec difficultyDrainFactor : ℚ) :
    List AgentSnapshot → List AgentSnapshot × ℚ
  | [] => ([], 0)
  | a :: rest =>
    let healthMult := a.healthLossMultiplier.getD 1
    let sanityMult := a.sanityLossMultiplier.getD 1
    let baseHp := HP_LOSS_PER_MIN * elapsedSec / 60
    let baseSan := SAN_LOSS_PER_MIN * elapsedSec / 60
    let hpLoss := baseHp * difficultyDrainFactor * healthMult
    let sanLoss := baseSan * difficultyDrainFactor * sanityMult
    let newHealth := a.health.getD 0 - hpLoss
    let newSanity := a.sanity.getD 0 - sanLoss
    if newHealth ≤ 0 ∨ newSanity ≤ 0 then
      tickAgents t elapsedSec difficultyDrainFactor rest
    else
      let live := { a with health := some newHealth, sanity := some newSanity }
      let (tail, p) := tickAgents t elapsedSec difficultyDrainFactor rest
      (live :: tail, computeAgentPowerQ live t + p)

/-- Drain/power pass across all bundles of the steady tick: map each
bundle through `tickAgents`, drop bundles left with no agents, and
accumulate total power. -/
def drainBundles (t : ThreatInstance) (elapsedSec difficultyDrainFactor : ℚ) :
    List Bundle → List Bundle × ℚ
  | [] => ([], 0)
  | b :: rest =>
    let (agents, p) := tickAgents t elapsedSec difficultyDrainFactor b.agents
    let (tail, q) := drainBundles t elapsedSec difficultyDrainFactor rest
    let updated := { b with agents := agents }
    if updated.agents.isEmpty then (tail, p + q) else (updated :: tail, p + q)

/-- Main tick loop `tickThreats()`, restricted to finite numeric state.
The random template and id suffix a spawn would use are passed
explicitly.  The `progress` update mirrors
`Math.min(100, (activeThreat.progress || 0) + progressDelta)`; over ℚ,
`p || 0 = p`, but in the source the `|| 0` resets a NaN progress (one a
non-finite snapshot can produce) to 0 — that general behaviour is
modelled by `tickThreatsJS` below, of which this function is the
finite restriction. -/
def tickThreats (s : ServerState) (nowMs : ℚ) (tmpl : ThreatTemplate)
    (suffix : String) : ServerState :=
  let elapsedSec := (nowMs - s.lastTickMs) / 1000
  if elapsedSec ≤ 0 then s
  else
    let s1 := { s with lastTickMs := nowMs }
    match s.activeThreat with
    | none =>
      if s.cooldownUntilMs ≤ nowMs then spawnThreat s1 nowMs tmpl suffix else s1
    | some t =>
      if t.expiresAtMs ≤ nowMs ∧ t.status = Status.active then
        endActiveThreat
          { s1 with activeThreat := some { t with status := Status.expired } }
          nowMs Status.expired
      else if t.status ≠ Status.active then s1
      else
        let difficultySpeed := getDifficultySpeed t
        let difficultyDrainFactor := 1 / difficultySpeed
        let (newBundles, totalPower) :=
          drainBundles t elapsedSec difficultyDrainFactor t.assignedAgents
        let progressDelta := elapsedSec * totalPower * WT_BASE_RATE * difficultySpeed
        let t1 := { t with
          assignedAgents := newBundles
          progress := min 100 (t.progress + progressDelta)
          lastTickMs := nowMs }
        if 100 ≤ t1.progress then
          endActiveThreat
            { s1 with activeThreat := some { t1 with status := Status.cleared } }
            nowMs Status.cleared
        else
          { s1 with activeThreat := some t1 }

/-! ## Assignment / unassignment routes -/

/-- A raw agent object submitted by a client; `none` on a numeric field
models an absent (or otherwise `??`/`||`-defaulted) value, `skills =
none` models a non-array `skills`, and `statModifiers = none` models a
falsy `statModifiers`. -/
structure ClientAgent where
  agentId : String
  name : String
  portraitUrl : String
  courage : Option ℚ
  investigation : Option ℚ
  occultism : Option ℚ
  health : Option ℚ
  sanity : Option ℚ
  skills : Option (List String)
  statModifiers : Option StatModifiers
  powerMultiplier : Option ℚ
  healthLossMultiplier : Option ℚ
  sanityLossMultiplier : Option ℚ
deriving DecidableEq, Repr, Inhabited

/-- Per-agent sanitization performed inside the assign handlers, over
finite-or-missing submissions: stats default to 0 (via a logical-or),
health and sanity default to 30 (via a nullish coalesce), a non-array
`skills` becomes the empty list, a falsy `statModifiers` becomes the
empty object, and the three `worldThreatModifiers` multipliers are
copied as-is (a falsy modifier object yields all-absent multipliers).
In the source the same guards keep truthy non-finite submissions
(Infinity stats, NaN multipliers) unchanged; such payloads are
representable at the JavaScript-value level (`JAgentState`) used by
`tickThreatsJS`. -/
def sanitizeAgent (a : ClientAgent) : AgentSnapshot :=
  { agentId := a.agentId
    name := a.name
    portraitUrl := a.portraitUrl
    courage := a.courage.getD 0
    investigation := a.investigation.getD 0
    occultism := a.occultism.getD 0
    health := some (a.health.getD 30)
    sanity := some (a.sanity.getD 30)
    skills := a.skills.getD []
    statModifiers := a.statModifiers.getD {}
    powerMultiplier := a.powerMultiplier
    healthLossMultiplier := a.healthLossMultiplier
    sanityLossMultiplier := a.sanityLossMultiplier }

/-- Replace-or-append of a player's bundle:
`bundles.findIndex(b => b.playerId === playerId)` followed by
`bundles[idx] = bundle` on a hit (replace the first match, keep the
rest) or `bundles.push(bundle)` on a miss. -/
def upsertBundle : List Bundle → Bundle → List Bundle
  | [], b => [b]
  | x :: xs, b =>
    if x.playerId = b.playerId then b :: xs else x :: upsertBundle xs b

/-- The state mutation of a successful assign: build the (≤ 3)
sanitized snapshots and replace-or-append the player's bundle. -/
def applyAssign (t : ThreatInstance) (playerId directorName : String)
    (agents : List ClientAgent) : ThreatInstance :=
  let limited := agents.take 3
  let snapshots := limited.map sanitizeAgent
  let bundle : Bundle :=
    { playerId := playerId, directorName := directorName, agents := snapshots }
  { t with assignedAgents := upsertBundle t.assignedAgents bundle }

/-- POST /world-threats/assign (instance-less endpoint).  `agents =
none` models a body whose `agents` is not an array.  JavaScript-falsy
(empty) strings model missing `playerId`/`directorName`. -/
def postAssign (s : ServerState) (playerId directorName : String)
    (agents : Option (List ClientAgent)) : Except String ServerState :=
  match s.activeThreat with
  | none => Except.error "No active threat to assign to."
  | some t =>
    if t.status ≠ Status.active then Except.error "No active threat to assign to."
    else match agents with
      | none => Except.error "Missing playerId, directorName, or agents."
      | some ags =>
        if playerId = "" ∨ directorName = "" then
          Except.error "Missing playerId, directorName, or agents."
        else
          Except.ok { s with activeThreat := some (applyAssign t playerId directorName ags) }

/-- POST /world-threats/:instanceId/assign (back-compat endpoint): same
body handling, but additionally 404s when the path id does not match
the active instance. -/
def postAssignById (s : ServerState) (instanceId playerId directorName : String)
    (agents : Option (List ClientAgent)) : Except String ServerState :=
  match s.activeThreat with
  | none => Except.error "No active threat to assign to."
  | some t =>
    if t.status ≠ Status.active then Except.error "No active threat to assign to."
    else if t.instanceId ≠ instanceId then Except.error "Threat not found or not active."
    else match agents with
      | none => Except.error "Missing playerId, directorName, or agents."
      | some ags =>
        if playerId = "" ∨ directorName = "" then
          Except.error "Missing playerId, directorName, or agents."
        else
          Except.ok { s with activeThreat := some (applyAssign t playerId directorName ags) }

/-- POST /world-threats/unassign (instance-less endpoint): error only on
a falsy `playerId`; a missing active threat is a success no-op. -/
def postUnassign (s : ServerState) (playerId : String) : Except String ServerState :=
  if playerId = "" then Except.error "Missing playerId"
  else match s.activeThreat with
    | none => Except.ok s
    | some t =>
      let t1 := { t with assignedAgents :=
        t.assignedAgents.filter fun b => b.playerId ≠ playerId }
      Except.ok { s with activeThreat := some t1 }

/-- POST /world-threats/:instanceId/unassign (back-compat endpoint):
unlike the instance-less route, this 404s when there is no active
threat or the path id does not match it. -/
def postUnassignById (s : ServerState) (instanceId playerId : String) :
    Except String ServerState :=
  if playerId = "" then Except.error "Missing playerId"
  else match s.activeThreat with
    | none => Except.error "Threat not found or not active."
    | some t =>
      if t.instanceId ≠ instanceId then Except.error "Threat not found or not active."
      else
        let t1 := { t with assignedAgents :=
          t.assignedAgents.filter fun b => b.playerId ≠ playerId }
        Except.ok { s with activeThreat := some t1 }

/-- POST /world-threats/admin/finish: force progress to 100, mark
cleared, archive via `endActiveThreat("cleared")`. -/
def adminFinish (s : ServerState) (nowMs : ℚ) : ServerState :=
  match s.activeThreat with
  | none => s
  | some t =>
    endActiveThreat
      { s with activeThreat := some { t with progress := 100, status := Status.cleared } }
      nowMs Status.cleared

/-- POST /world-threats/admin/cycle: expire the current threat (if any),
zero the cooldown, spawn a new instance immediately. -/
def adminCycle (s : ServerState) (nowMs : ℚ) (tmpl : ThreatTemplate)
    (suffix : String) : ServerState :=
  let s1 := match s.activeThreat with
    | some t =>
      endActiveThreat
        { s with activeThreat := some { t with status := Status.expired } }
        nowMs Status.expired
    | none => s
  spawnThreat { s1 with cooldownUntilMs := 0 } nowMs tmpl suffix

/-! ## The operation alphabet and reachability -/

/-- One externally-triggered state mutation. Request payloads and the
tick's time/template/randomness are explicit parameters. -/
inductive Op where
  | tick (nowMs : ℚ) (tmpl : ThreatTemplate) (suffix : String)
  | assign (playerId directorName : String) (agents : Option (List ClientAgent))
  | assignById (instanceId playerId directorName : String)
      (agents : Option (List ClientAgent))
  | unassign (playerId : String)
  | unassignById (instanceId playerId : String)
  | adminFinish (nowMs : ℚ)
  | adminCycle (nowMs : ℚ) (tmpl : ThreatTemplate) (suffix : String)

/-- Apply one operation to the server state (a rejected request leaves
the state unchanged). -/
def step (s : ServerState) : Op → ServerState
  | Op.tick nowMs tmpl suffix => tickThreats s nowMs tmpl suffix
  | Op.assign p d ags =>
    match postAssign s p d ags with
    | Except.ok s1 => s1
    | Except.error _ => s
  | Op.assignById iid p d ags =>
    match postAssignById s iid p d ags with
    | Except.ok s1 => s1
    | Except.error _ => s
  | Op.unassign p =>
    match postUnassign s p with
    | Except.ok s1 => s1
    | Except.error _ => s
  | Op.unassignById iid p =>
    match postUnassignById s iid p with
    | Except.ok s1 => s1
    | Except.error _ => s
  | Op.adminFinish nowMs => adminFinish s nowMs
  | Op.adminCycle nowMs tmpl suffix => adminCycle s nowMs tmpl suffix

/-- Run a sequence of operations. -/
def run (s : ServerState) (ops : List Op) : ServerState :=
  ops.foldl step s

/-- Process start: no active threat, empty archive, zero cooldown. -/
def initState : ServerState :=
  { activeThreat := none, finishedThreats := [], lastTickMs := 0, cooldownUntilMs := 0 }

/-- Number of threat instances (active slot plus archive) whose status
is "active". -/
def countActive (s : ServerState) : Nat :=
  ((s.activeThreat.toList ++ s.finishedThreats).filter
    fun t => t.status = Status.active).length

/-! ## JavaScript number semantics for the power function

The claim about `computeAgentPower` concerns non-finite propagation, so
this section re-embeds the function over a faithful model of
JavaScript's number values (finite, NaN, the two infinities) and of the
exact guards the source uses (`|| 0` truthiness, a typeof-number
check). -/

/-- A JavaScript number: finite (modelled exactly by `ℚ`), NaN, or an
infinity. -/
inductive JNum where
  | fin (q : ℚ)
  | nan
  | inf
  | ninf
deriving DecidableEq, Repr, Inhabited

/-- A JavaScript value from the restriction relevant here: a number or
`undefined` (an absent field). -/
inductive JVal where
  | num (n : JNum)
  | undef
deriving DecidableEq, Repr, Inhabited

/-- IEEE addition on JavaScript numbers. -/
def JNum.add : JNum → JNum → JNum
  | JNum.nan, _ => JNum.nan
  | _, JNum.nan => JNum.nan
  | JNum.inf, JNum.ninf => JNum.nan
  | JNum.ninf, JNum.inf => JNum.nan
  | JNum.inf, _ => JNum.inf
  | _, JNum.inf => JNum.inf
  | JNum.ninf, _ => JNum.ninf
  | _, JNum.ninf => JNum.ninf
  | JNum.fin a, JNum.fin b => JNum.fin (a + b)

/-- IEEE multiplication on JavaScript numbers. -/
def JNum.mul : JNum → JNum → JNum
  | JNum.nan, _ => JNum.nan
  | _, JNum.nan => JNum.nan
  | JNum.inf, JNum.fin b =>
    if 0 < b then JNum.inf else if b < 0 then JNum.ninf else JNum.nan
  | JNum.fin a, JNum.inf =>
    if 0 < a then JNum.inf else if a < 0 then JNum.ninf else JNum.nan
  | JNum.ninf, JNum.fin b =>
    if 0 < b then JNum.ninf else if b < 0 then JNum.inf else JNum.nan
  | JNum.fin a, JNum.ninf =>
    if 0 < a then JNum.ninf else if a < 0 then JNum.inf else JNum.nan
  | JNum.inf, JNum.inf => JNum.inf
  | JNum.inf, JNum.ninf => JNum.ninf
  | JNum.ninf, JNum.inf => JNum.ninf
  | JNum.ninf, JNum.ninf => JNum.inf
  | JNum.fin a, JNum.fin b => JNum.fin (a * b)

/-- `Math.max(0, x)` (NaN propagates, negative infinity clamps to 0). -/
def JNum.max0 : JNum → JNum
  | JNum.nan => JNum.nan
  | JNum.inf => JNum.inf
  | JNum.ninf => JNum.fin 0
  | JNum.fin q => JNum.fin (max 0 q)

/-- JavaScript `v || 0` on a number-or-undefined value: `undefined`,
`NaN` and `0` are falsy and yield 0; every other number is returned. -/
def JVal.orZero : JVal → JNum
  | JVal.num (JNum.fin q) => if q = 0 then JNum.fin 0 else JNum.fin q
  | JVal.num JNum.nan => JNum.fin 0
  | JVal.num JNum.inf => JNum.inf
  | JVal.num JNum.ninf => JNum.ninf
  | JVal.undef => JNum.fin 0

/-- An agent object as seen by `computeAgentPower` before any
sanitization (e.g. one drained in place during a tick, or one a caller
passes directly): the three stats, the skill list (`none` for a
non-array value), and `worldThreatModifiers.powerMultiplier` as reached
through `agent.worldThreatModifiers || ` the-empty-object (`undef`
covers both an absent modifier object and an absent field). -/
structure JAgent where
  courage : JVal
  investigation : JVal
  occultism : JVal
  skills : Option (List String)
  powerMultiplier : JVal
deriving DecidableEq, Repr, Inhabited

/-- `computeAgentPower(agent, threat)` over JavaScript number
semantics:
stats default through `|| 0`; primary selected by `threat.primaryStat`;
`skillBonus += 2` per required skill the agent has;
`basePower = primary * 1.5 + statSum * 0.6 + skillBonus`;
multiplied by `powerMultiplier` when `typeof` it is "number"
(which NaN and the infinities are), else 1; `Math.max(0, basePower)`. -/
def computeAgentPower (agent : JAgent) (threat : ThreatInstance) : JNum :=
  let c := agent.courage.orZero
  let i := agent.investigation.orZero
  let o := agent.occultism.orZero
  let primary :=
    if threat.primaryStat = "Courage" then c
    else if threat.primaryStat = "Investigation" then i
    else o
  let statSum := (c.add i).add o
  let need := threat.skills
  let haveSkills := agent.skills.getD []
  let skillBonus : ℚ := 2 * (need.countP fun s => haveSkills.contains s)
  let basePower :=
    ((primary.mul (JNum.fin (3/2))).add (statSum.mul (JNum.fin (3/5)))).add
      (JNum.fin skillBonus)
  let powerMult := match agent.powerMultiplier with
    | JVal.num n => n
    | JVal.undef => JNum.fin 1
  (basePower.mul powerMult).max0

/-! ## The tick over JavaScript number semantics

The ℚ-valued state machine above captures the tick on finite-valued
snapshots.  The sanitize step of the assign routes, however, passes
truthy non-finite submissions through unchanged (`a.courage || 0` keeps
an `Infinity` produced by e.g. JSON `1e999`, and `worldThreatModifiers`
is copied verbatim), so instances whose bundles and progress carry NaN
or an infinity are reachable in the source.  This section re-embeds the
whole tick of the second server variant over the `JNum` model so those
states are representable: the drain arithmetic, the drop comparison
(false on NaN), `Math.min`, the `(activeThreat.progress || 0)` guard
and the `progress >= 100` check (false on NaN) all follow JavaScript
semantics.  Presentation-only string fields (name, description, zone,
theme) are elided from the instance; no tick logic reads them. -/

/-- IEEE negation. -/
def JNum.neg : JNum → JNum
  | JNum.fin q => JNum.fin (-q)
  | JNum.nan => JNum.nan
  | JNum.inf => JNum.ninf
  | JNum.ninf => JNum.inf

/-- IEEE subtraction, `a - b`. -/
def JNum.sub (a b : JNum) : JNum := a.add b.neg

/-- JavaScript `a <= b` (false whenever either side is NaN). -/
def JNum.jle : JNum → JNum → Bool
  | JNum.nan, _ => false
  | _, JNum.nan => false
  | JNum.fin x, JNum.fin y => decide (x ≤ y)
  | JNum.ninf, _ => true
  | _, JNum.inf => true
  | JNum.inf, _ => false
  | _, JNum.ninf => false

/-- `Math.min(a, b)` (NaN propagates). -/
def JNum.jmin : JNum → JNum → JNum
  | JNum.nan, _ => JNum.nan
  | _, JNum.nan => JNum.nan
  | JNum.fin x, JNum.fin y => JNum.fin (min x y)
  | JNum.ninf, _ => JNum.ninf
  | _, JNum.ninf => JNum.ninf
  | JNum.inf, b => b
  | a, JNum.inf => a

/-- JavaScript `p || 0` on a number (NaN and 0 are falsy). -/
def JNum.orZero : JNum → JNum
  | JNum.fin q => if q = 0 then JNum.fin 0 else JNum.fin q
  | JNum.nan => JNum.fin 0
  | JNum.inf => JNum.inf
  | JNum.ninf => JNum.ninf

/-- An agent as the tick sees it at the JavaScript-value level: the
power-relevant fields (as a `JAgent`), current health/sanity (`none`
models an absent value, caught by the `?? 0` in the tick), and the two
loss multipliers (`none` models a value `typeof` does not classify as a
number, defaulted to 1). -/
structure JAgentState where
  agent : JAgent
  health : Option JNum
  sanity : Option JNum
  healthLossMultiplier : Option JNum
  sanityLossMultiplier : Option JNum
deriving DecidableEq, Repr, Inhabited

/-- One player's bundle at the JavaScript-value level. -/
structure JBundle where
  playerId : String
  directorName : String
  agents : List JAgentState
deriving DecidableEq, Repr, Inhabited

/-- A threat instance at the JavaScript-value level: progress is a full
JavaScript number (reachably NaN), bundles hold `JAgentState`.
Timestamps and difficulty stay server-generated finite values. -/
structure JThreatInstance where
  instanceId : String
  primaryStat : String
  skills : List String
  difficulty : Option ℚ
  progress : JNum
  status : Status
  assignedAgents : List JBundle
  lastTickMs : ℚ
  expiresAtMs : ℚ
  eligibleForRewardByPlayerId : List String
  endedAtMs : Option ℚ
deriving DecidableEq, Repr, Inhabited

/-- The fields of a JavaScript-level instance that `computeAgentPower`
reads (`threat.primaryStat` and `threat.skills`), reassembled as a
`ThreatInstance` so the tick calls the same power function. -/
def JThreatInstance.powerView (t : JThreatInstance) : ThreatInstance :=
  { (default : ThreatInstance) with
      primaryStat := t.primaryStat
      skills := t.skills }

/-- `getDifficultySpeed(threat)` for a JavaScript-level instance (the
difficulty field is server-generated, modelled as in
`getDifficultySpeed`). -/
def getDifficultySpeedJ (threat : JThreatInstance) : ℚ :=
  let n : ℚ := match threat.difficulty with
    | some q => if q = 0 then 10 else q
    | none => 10
  let d := max 1 (min 10 n)
  1 + (10 - d) * (1/10)

/-- The server state at the JavaScript-value level. -/
structure JServerState where
  activeThreat : Option JThreatInstance
  finishedThreats : List JThreatInstance
  lastTickMs : ℚ
  cooldownUntilMs : ℚ
deriving DecidableEq, Repr, Inhabited

/-- `createThreatInstance(template)` at the JavaScript-value level. -/
def createThreatInstanceJS (template : ThreatTemplate) (nowMs : ℚ)
    (suffix : String) : JThreatInstance :=
  { instanceId := template.id ++ "-" ++ suffix
    primaryStat := template.primaryStat
    skills := template.skills.getD []
    difficulty := some (template.difficulty.getD 10)
    progress := JNum.fin 0
    status := Status.active
    assignedAgents := []
    lastTickMs := nowMs
    expiresAtMs := nowMs +
      (template.lifetimeMinutes.getD DEFAULT_LIFETIME_MINUTES) * 60 * 1000
    eligibleForRewardByPlayerId := []
    endedAtMs := none }

/-- `spawnThreat()` at the JavaScript-value level. -/
def spawnThreatJS (s : JServerState) (nowMs : ℚ) (tmpl : ThreatTemplate)
    (suffix : String) : JServerState :=
  { s with activeThreat := some (createThreatInstanceJS tmpl nowMs suffix)
           lastTickMs := nowMs }

/-- `buildEligibilityMap(threat)` at the JavaScript-value level. -/
def buildEligibilityMapJS (threat : JThreatInstance) : List String :=
  ((threat.assignedAgents.filter fun a => a.playerId ≠ "").map
    fun a => a.playerId).dedup

/-- `endActiveThreat(status)` at the JavaScript-value level. -/
def endActiveThreatJS (s : JServerState) (nowMs : ℚ) (status : Status) :
    JServerState :=
  match s.activeThreat with
  | none => s
  | some t =>
    let ended := { t with
      status := status
      eligibleForRewardByPlayerId := buildEligibilityMapJS t
      endedAtMs := some nowMs }
    { s with
      activeThreat := none
      finishedThreats := (ended :: s.finishedThreats).take 50
      cooldownUntilMs := nowMs + COOLDOWN_MIN * 60 * 1000 }

/-- The per-agent loop of the steady tick over JavaScript numbers:
`hpLoss = (HP_LOSS_PER_MIN * elapsedSec) / 60 * drainFactor * mult`,
`newHealth = (agent.health ?? 0) - hpLoss`, drop on
`newHealth <= 0 || newSanity <= 0` (false for NaN, as in the source),
and accumulate the surviving agents' power. -/
def tickAgentsJS (t : JThreatInstance)
    (elapsedSec difficultyDrainFactor : ℚ) :
    List JAgentState → List JAgentState × JNum
  | [] => ([], JNum.fin 0)
  | a :: rest =>
    let healthMult := a.healthLossMultiplier.getD (JNum.fin 1)
    let sanityMult := a.sanityLossMultiplier.getD (JNum.fin 1)
    let baseHp := JNum.fin (HP_LOSS_PER_MIN * elapsedSec / 60)
    let baseSan := JNum.fin (SAN_LOSS_PER_MIN * elapsedSec / 60)
    let hpLoss := (baseHp.mul (JNum.fin difficultyDrainFactor)).mul healthMult
    let sanLoss := (baseSan.mul (JNum.fin difficultyDrainFactor)).mul sanityMult
    let newHealth := (a.health.getD (JNum.fin 0)).sub hpLoss
    let newSanity := (a.sanity.getD (JNum.fin 0)).sub sanLoss
    if newHealth.jle (JNum.fin 0) || newSanity.jle (JNum.fin 0) then
      tickAgentsJS t elapsedSec difficultyDrainFactor rest
    else
      let live := { a with health := some newHealth, sanity := some newSanity }
      let (tail, p) := tickAgentsJS t elapsedSec difficultyDrainFactor rest
      (live :: tail, (computeAgentPower live.agent t.powerView).add p)

/-- The bundle pass of the steady tick over JavaScript numbers. -/
def drainBundlesJS (t : JThreatInstance)
    (elapsedSec difficultyDrainFactor : ℚ) :
    List JBundle → List JBundle × JNum
  | [] => ([], JNum.fin 0)
  | b :: rest =>
    let (agents, p) := tickAgentsJS t elapsedSec difficultyDrainFactor b.agents
    let (tail, q) := drainBundlesJS t elapsedSec difficultyDrainFactor rest
    let updated := { b with agents := agents }
    if updated.agents.isEmpty then (tail, p.add q)
    else (updated :: tail, p.add q)

/-- The main tick `tickThreats()` over JavaScript number semantics:
`progressDelta = elapsedSec * totalPower * WT_BASE_RATE * speed` (NaN
propagates), `progress = Math.min(100, (progress || 0) + delta)` — the
`|| 0` resets a NaN progress to 0 — and the cleared check
`progress >= 100` is false on NaN. -/
def tickThreatsJS (s : JServerState) (nowMs : ℚ) (tmpl : ThreatTemplate)
    (suffix : String) : JServerState :=
  let elapsedSec := (nowMs - s.lastTickMs) / 1000
  if elapsedSec ≤ 0 then s
  else
    let s1 := { s with lastTickMs := nowMs }
    match s.activeThreat with
    | none =>
      if s.cooldownUntilMs ≤ nowMs then spawnThreatJS s1 nowMs tmpl suffix
      else s1
    | some t =>
      if t.expiresAtMs ≤ nowMs ∧ t.status = Status.active then
        endActiveThreatJS
          { s1 with activeThreat := some { t with status := Status.expired } }
          nowMs Status.expired
      else if t.status ≠ Status.active then s1
      else
        let difficultySpeed := getDifficultySpeedJ t
        let difficultyDrainFactor := 1 / difficultySpeed
        let (newBundles, totalPower) :=
          drainBundlesJS t elapsedSec difficultyDrainFactor t.assignedAgents
        let progressDelta :=
          (((JNum.fin elapsedSec).mul totalPower).mul
            (JNum.fin WT_BASE_RATE)).mul (JNum.fin difficultySpeed)
        let t1 := { t with
          assignedAgents := newBundles
          progress := (JNum.fin 100).jmin (t.progress.orZero.add progressDelta)
          lastTickMs := nowMs }
        if (JNum.fin 100).jle t1.progress then
          endActiveThreatJS
            { s1 with activeThreat := some { t1 with status := Status.cleared } }
            nowMs Status.cleared
        else
          { s1 with activeThreat := some t1 }

/-! ## Contribution ledger

Modelled from the spec: no contribution-ledger implementation exists
anywhere in the repository sources; §3 (ContributionLedger), §4.3d and
§4.4 of the specification describe per-player cumulative power-seconds
plus minute-aligned buckets with a 6-hour trailing retention window
pruned lazily on each tick.  The definitions below follow those words;
assoc lists model the JavaScript objects, and bucket keys are the
millisecond values of the minute-aligned ISO timestamps. -/

/-- Modelled from the spec: the fixed bucket retention window, 6 hours,
in milliseconds. -/
def CONTRIB_RETENTION_MS : ℚ := 6 * 60 * 60 * 1000

/-- Modelled from the spec: the minute-aligned bucket key for a tick
happening at `nowMs`. -/
def minuteKeyMs (nowMs : ℚ) : ℚ := ((⌊nowMs / 60000⌋ : ℤ) : ℚ) * 60000

/-- Modelled from the spec: a per-instance contribution ledger,
`playerId → cumulative power-seconds` and
`playerId → (minute bucket → power-seconds)`. -/
structure ContributionLedger where
  totals : List (String × ℚ)
  buckets : List (String × List (ℚ × ℚ))
deriving DecidableEq, Repr, Inhabited

/-- Add `v` to key `k` of an assoc list (insert at the end when the key
is new — object key semantics). -/
def addAssoc : List (String × ℚ) → String → ℚ → List (String × ℚ)
  | [], k, v => [(k, v)]
  | e :: rest, k, v =>
    if e.1 = k then (e.1, e.2 + v) :: rest else e :: addAssoc rest k v

/-- Look a key up in an assoc list, defaulting to 0. -/
def lookupAssoc (l : List (String × ℚ)) (k : String) : ℚ :=
  ((l.find? fun e => e.1 == k).map Prod.snd).getD 0

/-- Add `v` to bucket `k` of one player's bucket map. -/
def addBucket : List (ℚ × ℚ) → ℚ → ℚ → List (ℚ × ℚ)
  | [], k, v => [(k, v)]
  | e :: rest, k, v =>
    if e.1 = k then (e.1, e.2 + v) :: rest else e :: addBucket rest k v

/-- Look a bucket key up in one player's bucket map, defaulting to 0. -/
def lookupBucket (l : List (ℚ × ℚ)) (k : ℚ) : ℚ :=
  ((l.find? fun e => e.1 == k).map Prod.snd).getD 0

/-- Add `v` to bucket `k` of player `p` in the two-level bucket map. -/
def addPlayerBucket : List (String × List (ℚ × ℚ)) → String → ℚ → ℚ →
    List (String × List (ℚ × ℚ))
  | [], p, k, v => [(p, [(k, v)])]
  | e :: rest, p, k, v =>
    if e.1 = p then (e.1, addBucket e.2 k v) :: rest
    else e :: addPlayerBucket rest p k v

/-- Look up player `p`'s bucket map, defaulting to the empty map. -/
def playerBuckets (L : ContributionLedger) (p : String) : List (ℚ × ℚ) :=
  ((L.buckets.find? fun e => e.1 == p).map Prod.snd).getD []

/-- Modelled from the spec (§4.3d): record one bundle's contribution —
add the amount to the player's cumulative total and to the
current-minute bucket. -/
def recordContribution (L : ContributionLedger) (playerId : String)
    (amount nowMs : ℚ) : ContributionLedger :=
  { totals := addAssoc L.totals playerId amount
    buckets := addPlayerBucket L.buckets playerId (minuteKeyMs nowMs) amount }

/-- Modelled from the spec (§4.4): drop every bucket strictly older
than the trailing 6-hour retention window relative to the current
tick. -/
def pruneLedger (L : ContributionLedger) (nowMs : ℚ) : ContributionLedger :=
  { L with buckets := L.buckets.map fun pb =>
      (pb.1, pb.2.filter fun e => decide (nowMs - CONTRIB_RETENTION_MS ≤ e.1)) }

/-- Modelled from the spec (§4.3d, §4.4): the ledger side of one steady
tick — for each bundle, `power * elapsed` is credited to that player's
total and current-minute bucket, then buckets are pruned lazily (once,
after the writes, never eagerly on each write). -/
def recordTickContributions (L : ContributionLedger) (nowMs elapsedSec : ℚ)
    (bundlePowers : List (String × ℚ)) : ContributionLedger :=
  let written := bundlePowers.foldl
    (fun acc pb => recordContribution acc pb.1 (pb.2 * elapsedSec) nowMs) L
  pruneLedger written nowMs

/-- Boolean check that every bucket key in the ledger is inside the
trailing retention window ending at `nowMs`. -/
def retentionOK (L : ContributionLedger) (nowMs : ℚ) : Bool :=
  L.buckets.all fun pb => pb.2.all fun e =>
    decide (nowMs - CONTRIB_RETENTION_MS ≤ e.1)

/-- Boolean check that every bucket key in the ledger is minute-aligned. -/
def bucketsAligned (L : ContributionLedger) : Bool :=
  L.buckets.all fun pb => pb.2.all fun e => minuteKeyMs e.1 == e.1

/-! ## Shared sample data for witnesses -/

/-- A concrete template (the catalog's "wt_lovecraft" entry, shortened
description). -/
def sampleTemplate : ThreatTemplate :=
  { id := "wt_lovecraft"
    name := "The Star-Spawn's Call"
    description := ""
    zone := "Europe"
    theme := "LOVECRAFTIAN"
    primaryStat := "Occultism"
    skills := some []
    difficulty := some 10
    lifetimeMinutes := some 240 }

/-- A concrete instance with a chosen difficulty field. -/
def threatWithDifficulty (d : Option ℚ) : ThreatInstance :=
  { createThreatInstance sampleTemplate 0 "w" with difficulty := d }

/-- A concrete healthy agent snapshot. -/
def sampleAgent : AgentSnapshot :=
  { agentId := "a1"
    name := "A"
    portraitUrl := ""
    courage := 5
    investigation := 4
    occultism := 3
    health := some 30
    sanity := some 30
    skills := []
    statModifiers := {}
    powerMultiplier := none
    healthLossMultiplier := none
    sanityLossMultiplier := none }

/-- A concrete active threat with one assigned bundle. -/
def sampleThreat : ThreatInstance :=
  { createThreatInstance sampleTemplate 0 "w" with
      assignedAgents := [{ playerId := "p1", directorName := "D", agents := [sampleAgent] }] }

/-- A concrete server state owning `sampleThreat`. -/
def sampleState : ServerState :=
  { activeThreat := some sampleThreat
    finishedThreats := []
    lastTickMs := 0
    cooldownUntilMs := 0 }

/-! ## Helper lemmas -/

/-- The easing multiplier is at least 1 for every instance. -/
lemma one_le_getDifficultySpeed (t : ThreatInstance) : 1 ≤ getDifficultySpeed t := by
  unfold getDifficultySpeed
  have h10 : max 1 (min 10 (match t.difficulty with
      | some q => if q = 0 then (10:ℚ) else q
      | none => 10)) ≤ 10 := by
    apply max_le (by norm_num)
    exact min_le_left _ _
  nlinarith [h10]

/-- Agent power is non-negative. -/
lemma computeAgentPowerQ_nonneg (a : AgentSnapshot) (t : ThreatInstance) :
    0 ≤ computeAgentPowerQ a t := le_max_left 0 _

/-- The power accumulated by the per-agent tick loop is non-negative. -/
lemma tickAgents_power_nonneg (t : ThreatInstance) (e d : ℚ) :
    ∀ ags : List AgentSnapshot, 0 ≤ (tickAgents t e d ags).2 := by
  intro ags
  induction ags with
  | nil => simp [tickAgents]
  | cons a rest ih =>
    simp only [tickAgents]
    split
    · exact ih
    · simpa using add_nonneg (computeAgentPowerQ_nonneg _ t) ih

/-- The total power produced by the drain pass is non-negative. -/
lemma drainBundles_power_nonneg (t : ThreatInstance) (e d : ℚ) :
    ∀ bs : List Bundle, 0 ≤ (drainBundles t e d bs).2 := by
  intro bs
  induction bs with
  | nil => simp [drainBundles]
  | cons b rest ih =>
    simp only [drainBundles]
    split
    · simpa using add_nonneg (tickAgents_power_nonneg t e d b.agents) ih
    · simpa using add_nonneg (tickAgents_power_nonneg t e d b.agents) ih

/-- An agent is "alive": positive current health and sanity. -/
def agentAlive (a : AgentSnapshot) : Bool :=
  decide (0 < a.health.getD 0) && decide (0 < a.sanity.getD 0)

/-- Bundles are "healthy": none is empty and every agent is alive. -/
def bundlesHealthy (bs : List Bundle) : Bool :=
  bs.all fun b => (!b.agents.isEmpty) && b.agents.all agentAlive

/-- Every agent surviving the per-agent tick loop is alive. -/
lemma tickAgents_all_alive (t : ThreatInstance) (e d : ℚ) :
    ∀ ags : List AgentSnapshot, (tickAgents t e d ags).1.all agentAlive = true := by
  intro ags
  induction ags with
  | nil => simp [tickAgents]
  | cons a rest ih =>
    simp only [tickAgents]
    split
    · exact ih
    · rename_i hkeep
      push_neg at hkeep
      simp only [List.all_cons, Bool.and_eq_true, agentAlive, decide_eq_true_eq]
      refine ⟨⟨?_, ?_⟩, ih⟩
      · simpa using lt_of_not_le (by simpa using hkeep.1)
      · simpa using lt_of_not_le (by simpa using hkeep.2)

/-- Head of a 50-element archive trim of a cons. -/
lemma head?_take50 {α : Type} (a : α) (l : List α) :
    ((a :: l).take 50).head? = some a := rfl

/-- The drain pass leaves only healthy bundles. -/
lemma drainBundles_healthy (t : ThreatInstance) (e d : ℚ) :
    ∀ bs : List Bundle, bundlesHealthy (drainBundles t e d bs).1 = true := by
  intro bs
  induction bs with
  | nil => simp [drainBundles, bundlesHealthy]
  | cons b rest ih =>
    simp only [drainBundles]
    split
    · exact ih
    · rename_i hne
      simp only [bundlesHealthy, List.all_cons, Bool.and_eq_true] at ih ⊢
      refine ⟨⟨by simpa using hne, tickAgents_all_alive t e d b.agents⟩, ih⟩

/-! ## Claim C5 — difficulty speed -/

/-- C5: for every threat, the difficulty speed function returns
`1 + (10 - clamp(difficulty, 1, 10)) * 0.10`, treating an absent or
invalid difficulty as 10; speed is non-increasing in difficulty,
`speed(10) = 1.0`, and `speed(1) = 1.9` exactly. -/
theorem getDifficultySpeed_correct :
    (∀ t : ThreatInstance, ∀ d : ℚ, t.difficulty = some d → 1 ≤ d → d ≤ 10 →
      getDifficultySpeed t = 1 + (10 - d) * (1/10)) ∧
    (∀ t : ThreatInstance, t.difficulty = none → getDifficultySpeed t = 1) ∧
    (∀ t : ThreatInstance, t.difficulty = some 10 → getDifficultySpeed t = 1) ∧
    (∀ t : ThreatInstance, t.difficulty = some 1 → getDifficultySpeed t = 19/10) ∧
    (∀ t1 t2 : ThreatInstance, ∀ d1 d2 : ℚ,
      t1.difficulty = some d1 → t2.difficulty = some d2 →
      1 ≤ d1 → d1 ≤ d2 → d2 ≤ 10 →
      getDifficultySpeed t2 ≤ getDifficultySpeed t1) := by
  have key : ∀ t : ThreatInstance, ∀ d : ℚ, t.difficulty = some d → 1 ≤ d → d ≤ 10 →
      getDifficultySpeed t = 1 + (10 - d) * (1/10) := by
    intro t d hd h1 h10
    unfold getDifficultySpeed
    rw [hd]
    have hne : d ≠ 0 := by linarith
    simp only [hne, if_false]
    rw [min_eq_right h10, max_eq_right h1]
  refine ⟨key, ?_, ?_, ?_, ?_⟩
  · intro t hd
    unfold getDifficultySpeed
    rw [hd]
    norm_num
  · intro t hd
    rw [key t 10 hd (by norm_num) (by norm_num)]
    norm_num
  · intro t hd
    rw [key t 1 hd (by norm_num) (by norm_num)]
    norm_num
  · intro t1 t2 d1 d2 hd1 hd2 h1 h12 h10
    rw [key t1 d1 hd1 h1 (by linarith), key t2 d2 hd2 (by linarith) h10]
    nlinarith

/-- Witness for C5: a concrete easier (lower-difficulty) threat is at
least as fast as a harder one. -/
theorem getDifficultySpeed_correct_witness :
    getDifficultySpeed (threatWithDifficulty (some 5)) ≤
      getDifficultySpeed (threatWithDifficulty (some 3)) :=
  getDifficultySpeed_correct.2.2.2.2 (threatWithDifficulty (some 3))
    (threatWithDifficulty (some 5)) 3 5 rfl rfl (by norm_num) (by norm_num)
    (by norm_num)

/-! ## Claim C6 — downed agents removed by the steady tick -/

/-- C6: immediately after every steady tick of an active instance
(elapsed time positive, instance active, not yet expired), no agent
with post-drain health ≤ 0 or sanity ≤ 0 remains in any assignment
bundle, and no bundle with zero remaining agents remains in the
instance — whether the instance survives the tick or is archived as
cleared by it. -/
theorem tick_removes_downed_agents (s : ServerState) (nowMs : ℚ)
    (tmpl : ThreatTemplate) (suffix : String) (t : ThreatInstance)
    (hact : s.activeThreat = some t) (hst : t.status = Status.active)
    (helap : s.lastTickMs < nowMs) (hexp : nowMs < t.expiresAtMs) :
    (∀ t1, (tickThreats s nowMs tmpl suffix).activeThreat = some t1 →
      bundlesHealthy t1.assignedAgents = true) ∧
    ((tickThreats s nowMs tmpl suffix).activeThreat = none →
      ∀ t1, (tickThreats s nowMs tmpl suffix).finishedThreats.head? = some t1 →
        bundlesHealthy t1.assignedAgents = true) := by
  have hel : ¬ ((nowMs - s.lastTickMs) / 1000 ≤ 0) := by
    push_neg
    exact div_pos (by linarith) (by norm_num)
  have hexp2 : ¬ (t.expiresAtMs ≤ nowMs ∧ t.status = Status.active) := by
    intro h
    exact absurd h.1 (not_le.mpr hexp)
  have hst2 : ¬ (t.status ≠ Status.active) := by simp [hst]
  unfold tickThreats
  rw [hact]
  simp only [if_neg hel, if_neg hexp2, if_neg hst2]
  set pair := drainBundles t ((nowMs - s.lastTickMs) / 1000)
    (1 / getDifficultySpeed t) t.assignedAgents with hpair
  have hhealthy : bundlesHealthy pair.1 = true :=
    drainBundles_healthy t _ _ t.assignedAgents
  by_cases hcl : (100:ℚ) ≤
      min 100 (t.progress + (nowMs - s.lastTickMs) / 1000 * pair.2 *
        WT_BASE_RATE * getDifficultySpeed t)
  · rw [if_pos hcl]
    constructor
    · intro t1 ht1
      simp [endActiveThreat] at ht1
    · intro _ t1 ht1
      simp only [endActiveThreat] at ht1
      rw [head?_take50, Option.some.injEq] at ht1
      subst ht1
      simpa using hhealthy
  · rw [if_neg hcl]
    constructor
    · intro t1 ht1
      simp only [Option.some.injEq] at ht1
      subst ht1
      simpa using hhealthy
    · intro hnone
      simp at hnone

/-- Witness for C6: the concrete sample state after a 1-second tick
keeps exactly its healthy bundle. -/
theorem tick_removes_downed_agents_witness :
    bundlesHealthy (((tickThreats sampleState 1000 sampleTemplate
      "w").activeThreat.getD default).assignedAgents) = true :=
  (tick_removes_downed_agents sampleState 1000 sampleTemplate "w" sampleThreat
    rfl rfl (by norm_num [sampleState]) (by norm_num [sampleState, sampleThreat,
      createThreatInstance, sampleTemplate, DEFAULT_LIFETIME_MINUTES])).1 _
    (by norm_num +decide [tickThreats, sampleState, sampleThreat, sampleAgent,
      sampleTemplate, createThreatInstance, drainBundles, tickAgents,
      computeAgentPowerQ, getDifficultySpeed, spawnThreat, endActiveThreat,
      buildEligibilityMap, HP_LOSS_PER_MIN, SAN_LOSS_PER_MIN, WT_BASE_RATE,
      WORLD_THREAT_BASE_PROGRESS_RATE, AGENT_HEALTH_LOSS_PER_MINUTE,
      AGENT_SANITY_LOSS_PER_MINUTE, DEFAULT_LIFETIME_MINUTES])

/-! ## Claim C4 — the power function -/

/-- A stat field that is not an infinity (it may be a finite number,
NaN, or absent): such values survive `|| 0` as finite numbers. -/
def SafeStat (v : JVal) : Prop :=
  v ≠ JVal.num JNum.inf ∧ v ≠ JVal.num JNum.ninf

/-- The rational a stat field contributes after `|| 0` (0 for anything
that is not a finite number). -/
def JVal.statQ : JVal → ℚ
  | JVal.num (JNum.fin q) => q
  | _ => 0

/-- The rational a power-multiplier field contributes (its value when a
finite number, else the default 1). -/
def JVal.multQ : JVal → ℚ
  | JVal.num (JNum.fin q) => q
  | _ => 1

/-- A non-infinite stat field reduces through `|| 0` to a finite value. -/
lemma orZero_eq_statQ {v : JVal} (h : SafeStat v) :
    v.orZero = JNum.fin v.statQ := by
  rcases v with n | _
  · rcases n with q | _ | _ | _
    · by_cases h0 : q = 0
      · simp [JVal.orZero, JVal.statQ, h0]
      · simp [JVal.orZero, JVal.statQ, h0]
    · rfl
    · exact absurd rfl h.1
    · exact absurd rfl h.2
  · rfl

/-- C4 (amended): the power function returns
`max 0 ((primary * 1.5 + statSum * 0.6 + 2 per matched required skill) *
powerMultiplier)` with the multiplier defaulting to 1 when not
number-typed — and the result is a finite non-negative number whenever
every numeric field present is finite (missing and NaN stats default
safely through the falsy `|| 0` guard).  The code contains no
replacement of non-finite results by 0: that part of the original claim
fails (see the counterexample). -/
theorem computeAgentPower_formula (agent : JAgent) (threat : ThreatInstance)
    (hc : SafeStat agent.courage) (hi : SafeStat agent.investigation)
    (ho : SafeStat agent.occultism)
    (hm : agent.powerMultiplier = JVal.undef ∨
      ∃ q : ℚ, agent.powerMultiplier = JVal.num (JNum.fin q)) :
    computeAgentPower agent threat =
      JNum.fin (max 0
        (((if threat.primaryStat = "Courage" then agent.courage.statQ
           else if threat.primaryStat = "Investigation" then agent.investigation.statQ
           else agent.occultism.statQ) * (3/2)
          + (agent.courage.statQ + agent.investigation.statQ + agent.occultism.statQ)
            * (3/5)
          + 2 * (threat.skills.countP fun s => (agent.skills.getD []).contains s))
         * agent.powerMultiplier.multQ)) := by
  unfold computeAgentPower
  rw [orZero_eq_statQ hc, orZero_eq_statQ hi, orZero_eq_statQ ho]
  rcases hm with hm | ⟨q, hm⟩ <;>
    rw [hm] <;>
    by_cases h1 : threat.primaryStat = "Courage" <;>
    by_cases h2 : threat.primaryStat = "Investigation" <;>
    simp [h1, h2, JNum.add, JNum.mul, JNum.max0, JVal.multQ]

/-- Witness for C4: a concrete agent (one finite stat, one NaN stat,
one absent stat, a finite multiplier of 2) gets power
`(10 * 1.5 + 10 * 0.6) * 2 = 42`. -/
theorem computeAgentPower_formula_witness :
    computeAgentPower
      ({ courage := JVal.num (JNum.fin 10), investigation := JVal.num JNum.nan,
         occultism := JVal.undef, skills := some [],
         powerMultiplier := JVal.num (JNum.fin 2) })
      ({ createThreatInstance sampleTemplate 0 "w" with
         primaryStat := "Courage", skills := [] }) = JNum.fin 42 :=
  (computeAgentPower_formula
      ({ courage := JVal.num (JNum.fin 10), investigation := JVal.num JNum.nan,
         occultism := JVal.undef, skills := some [],
         powerMultiplier := JVal.num (JNum.fin 2) })
      ({ createThreatInstance sampleTemplate 0 "w" with
         primaryStat := "Courage", skills := [] })
      ⟨by decide, by decide⟩ ⟨by decide, by decide⟩ ⟨by decide, by decide⟩
      (Or.inr ⟨2, rfl⟩)).trans
    (by norm_num +decide [JVal.statQ, JVal.multQ, createThreatInstance,
      sampleTemplate])

/-- Counterexample for C4 as stated: with an `Infinity` courage stat
(numeric, hence not caught by any guard) against a Courage-primary
threat, the power function returns `Infinity` — a non-finite result
that the code does not replace by 0. -/
theorem computeAgentPower_infinite_result :
    computeAgentPower
      ({ courage := JVal.num JNum.inf, investigation := JVal.undef,
         occultism := JVal.undef, skills := none,
         powerMultiplier := JVal.undef })
      ({ createThreatInstance sampleTemplate 0 "w" with
         primaryStat := "Courage", skills := [] }) = JNum.inf := by
  norm_num +decide [computeAgentPower, JVal.orZero, JNum.add, JNum.mul,
    JNum.max0, createThreatInstance, sampleTemplate]

/-! ## Route-handler success shapes -/

/-- A successful instance-less assign leaves everything but the active
threat's bundles untouched. -/
lemma postAssign_ok_shape {s s1 : ServerState} {p d : String}
    {ags : List ClientAgent}
    (h : postAssign s p d (some ags) = Except.ok s1) :
    ∃ t, s.activeThreat = some t ∧ t.status = Status.active ∧ p ≠ "" ∧ d ≠ "" ∧
      s1 = { s with activeThreat := some (applyAssign t p d ags) } := by
  unfold postAssign at h
  split at h
  · exact absurd h (by simp)
  · rename_i t heq
    split at h
    · exact absurd h (by simp)
    · rename_i hst
      push_neg at hst
      split at h
      · exact absurd h (by simp)
      · rename_i ags2 heq2
        split at h
        · exact absurd h (by simp)
        · rename_i hpd
          push_neg at hpd
          cases heq2
          exact ⟨t, heq, hst, hpd.1, hpd.2, (Except.ok.inj h).symm⟩

/-- Any successful assign (instance-less endpoint) preserves the
archive, tick clock and cooldown. -/
lemma postAssign_finishedThreats {s s1 : ServerState} {p d : String}
    {ags : Option (List ClientAgent)}
    (h : postAssign s p d ags = Except.ok s1) :
    s1.finishedThreats = s.finishedThreats := by
  unfold postAssign at h
  split at h
  · exact absurd h (by simp)
  · split at h
    · exact absurd h (by simp)
    · split at h
      · exact absurd h (by simp)
      · split at h
        · exact absurd h (by simp)
        · rw [← Except.ok.inj h]

/-- Any successful by-id assign preserves the archive. -/
lemma postAssignById_finishedThreats {s s1 : ServerState} {iid p d : String}
    {ags : Option (List ClientAgent)}
    (h : postAssignById s iid p d ags = Except.ok s1) :
    s1.finishedThreats = s.finishedThreats := by
  unfold postAssignById at h
  split at h
  · exact absurd h (by simp)
  · split at h
    · exact absurd h (by simp)
    · split at h
      · exact absurd h (by simp)
      · split at h
        · exact absurd h (by simp)
        · split at h
          · exact absurd h (by simp)
          · rw [← Except.ok.inj h]

/-- Any successful instance-less unassign preserves the archive. -/
lemma postUnassign_finishedThreats {s s1 : ServerState} {p : String}
    (h : postUnassign s p = Except.ok s1) :
    s1.finishedThreats = s.finishedThreats := by
  unfold postUnassign at h
  split at h
  · exact absurd h (by simp)
  · split at h
    · rw [← Except.ok.inj h]
    · rw [← Except.ok.inj h]

/-- Any successful by-id unassign preserves the archive. -/
lemma postUnassignById_finishedThreats {s s1 : ServerState} {iid p : String}
    (h : postUnassignById s iid p = Except.ok s1) :
    s1.finishedThreats = s.finishedThreats := by
  unfold postUnassignById at h
  split at h
  · exact absurd h (by simp)
  · split at h
    · exact absurd h (by simp)
    · split at h
      · exact absurd h (by simp)
      · rw [← Except.ok.inj h]

/-! ## Claim C1 — at most one active instance -/

/-- Invariant: nothing in the archive is still "active". -/
def FinishedInactive (s : ServerState) : Prop :=
  ∀ t ∈ s.finishedThreats, t.status ≠ Status.active

/-- Ending the active threat with a terminal status keeps the archive
free of active instances. -/
lemma finishedInactive_endActiveThreat {s : ServerState}
    (h : FinishedInactive s) (nowMs : ℚ) {st : Status}
    (hst : st ≠ Status.active) :
    FinishedInactive (endActiveThreat s nowMs st) := by
  intro t ht
  unfold endActiveThreat at ht
  split at ht
  · exact h t ht
  · have hmem := List.take_subset 50 _ ht
    rcases List.mem_cons.mp hmem with rfl | hmem2
    · simpa using hst
    · exact h t hmem2

set_option maxHeartbeats 1000000 in
/-- Every operation preserves the archive invariant. -/
lemma finishedInactive_step {s : ServerState} (h : FinishedInactive s)
    (op : Op) : FinishedInactive (step s op) := by
  cases op with
  | tick nowMs tmpl suffix =>
    intro t ht
    simp only [step, tickThreats] at ht
    repeat' split at ht
    all_goals first
      | exact h t ht
      | (refine finishedInactive_endActiveThreat ?_ nowMs (by simp) t ht; exact h)
  | assign p d ags =>
    intro t ht
    simp only [step] at ht
    split at ht
    · rename_i s1 heq
      rw [postAssign_finishedThreats heq] at ht
      exact h t ht
    · exact h t ht
  | assignById iid p d ags =>
    intro t ht
    simp only [step] at ht
    split at ht
    · rename_i s1 heq
      rw [postAssignById_finishedThreats heq] at ht
      exact h t ht
    · exact h t ht
  | unassign p =>
    intro t ht
    simp only [step] at ht
    split at ht
    · rename_i s1 heq
      rw [postUnassign_finishedThreats heq] at ht
      exact h t ht
    · exact h t ht
  | unassignById iid p =>
    intro t ht
    simp only [step] at ht
    split at ht
    · rename_i s1 heq
      rw [postUnassignById_finishedThreats heq] at ht
      exact h t ht
    · exact h t ht
  | adminFinish nowMs =>
    intro t ht
    simp only [step, adminFinish] at ht
    split at ht
    · exact h t ht
    · refine finishedInactive_endActiveThreat ?_ nowMs (by simp) t ht
      exact h
  | adminCycle nowMs tmpl suffix =>
    intro t ht
    simp only [step, adminCycle, spawnThreat] at ht
    split at ht
    · refine finishedInactive_endActiveThreat ?_ nowMs (by simp) t ht
      exact h
    · exact h t ht

/-- The archive invariant holds along every run. -/
lemma finishedInactive_run (s : ServerState) (h : FinishedInactive s)
    (ops : List Op) : FinishedInactive (run s ops) := by
  induction ops generalizing s with
  | nil => exact h
  | cons op rest ih => exact ih _ (finishedInactive_step h op)

/-- C1: over every sequence of ticks, spawns, assignments, and admin
actions from process start, at most one threat instance (active slot
plus archive) has status "active" at any time. -/
theorem at_most_one_active (ops : List Op) :
    countActive (run initState ops) ≤ 1 := by
  have hinv : FinishedInactive (run initState ops) :=
    finishedInactive_run _ (by intro t ht; simp [initState] at ht) ops
  unfold countActive
  rw [List.filter_append]
  have h2 : ((run initState ops).finishedThreats.filter
      fun t => decide (t.status = Status.active)) = [] := by
    rw [List.filter_eq_nil_iff]
    intro t ht
    simpa using hinv t ht
  rw [h2, List.append_nil]
  refine le_trans (List.length_filter_le _ _) ?_
  cases (run initState ops).activeThreat <;> simp

/-! ## Claim C2 — progress monotone, clamped, cleared at 100 -/

/-- The easing multiplier is at least 1 for every JavaScript-level
instance. -/
lemma one_le_getDifficultySpeedJ (t : JThreatInstance) :
    1 ≤ getDifficultySpeedJ t := by
  unfold getDifficultySpeedJ
  have h10 : max 1 (min 10 (match t.difficulty with
      | some q => if q = 0 then (10:ℚ) else q
      | none => 10)) ≤ 10 := by
    apply max_le (by norm_num)
    exact min_le_left _ _
  nlinarith [h10]

/-- The `|| 0` guard is the identity on finite numbers. -/
lemma JNum.orZero_fin (q : ℚ) : (JNum.fin q).orZero = JNum.fin q := by
  by_cases h : q = 0 <;> simp [JNum.orZero, h]

/-- A power-multiplier field that is absent or a finite number. -/
def MultFin (v : JVal) : Prop :=
  v = JVal.undef ∨ ∃ q : ℚ, v = JVal.num (JNum.fin q)

/-- On non-infinite stats and an absent-or-finite multiplier, the power
function returns a finite non-negative number. -/
lemma computeAgentPower_fin_of_safe (agent : JAgent) (threat : ThreatInstance)
    (hc : SafeStat agent.courage) (hi : SafeStat agent.investigation)
    (ho : SafeStat agent.occultism) (hm : MultFin agent.powerMultiplier) :
    ∃ q : ℚ, computeAgentPower agent threat = JNum.fin q ∧ 0 ≤ q := by
  unfold computeAgentPower
  rw [orZero_eq_statQ hc, orZero_eq_statQ hi, orZero_eq_statQ ho]
  rcases hm with hm | ⟨q, hm⟩ <;>
    rw [hm] <;>
    by_cases h1 : threat.primaryStat = "Courage" <;>
    by_cases h2 : threat.primaryStat = "Investigation" <;>
    · simp only [h1, h2, JNum.add, JNum.mul, JNum.max0, if_true, if_false,
        reduceIte]
      exact ⟨_, rfl, le_max_left 0 _⟩

/-- With only safe agents, the per-agent tick loop accumulates a finite
non-negative total power. -/
lemma tickAgentsJS_power_fin (t : JThreatInstance) (e d : ℚ) :
    ∀ ags : List JAgentState,
      (∀ a ∈ ags, SafeStat a.agent.courage ∧ SafeStat a.agent.investigation ∧
        SafeStat a.agent.occultism ∧ MultFin a.agent.powerMultiplier) →
      ∃ q : ℚ, (tickAgentsJS t e d ags).2 = JNum.fin q ∧ 0 ≤ q := by
  intro ags
  induction ags with
  | nil =>
    intro _
    exact ⟨0, rfl, le_refl 0⟩
  | cons a rest ih =>
    intro hall
    obtain ⟨q1, hq1, hq1n⟩ := ih fun a2 ha2 => hall a2 (List.mem_cons_of_mem _ ha2)
    obtain ⟨hc, hi, ho, hm⟩ := hall a (List.mem_cons_self a rest)
    obtain ⟨q2, hq2, hq2n⟩ :=
      computeAgentPower_fin_of_safe a.agent t.powerView hc hi ho hm
    simp only [tickAgentsJS]
    split
    · exact ⟨q1, hq1, hq1n⟩
    · rcases hrec : tickAgentsJS t e d rest with ⟨tail, pw⟩
      rw [hrec] at hq1
      have hp : pw = JNum.fin q1 := hq1
      subst hp
      refine ⟨q2 + q1, ?_, by linarith⟩
      simp only [hrec, hq2, JNum.add]

/-- With only safe agents, the bundle pass accumulates a finite
non-negative total power. -/
lemma drainBundlesJS_power_fin (t : JThreatInstance) (e d : ℚ) :
    ∀ bs : List JBundle,
      (∀ b ∈ bs, ∀ a ∈ b.agents,
        SafeStat a.agent.courage ∧ SafeStat a.agent.investigation ∧
        SafeStat a.agent.occultism ∧ MultFin a.agent.powerMultiplier) →
      ∃ q : ℚ, (drainBundlesJS t e d bs).2 = JNum.fin q ∧ 0 ≤ q := by
  intro bs
  induction bs with
  | nil =>
    intro _
    exact ⟨0, rfl, le_refl 0⟩
  | cons b rest ih =>
    intro hall
    obtain ⟨q1, hq1, hq1n⟩ :=
      ih fun b2 hb2 => hall b2 (List.mem_cons_of_mem _ hb2)
    obtain ⟨q2, hq2, hq2n⟩ := tickAgentsJS_power_fin t e d b.agents
      (hall b (List.mem_cons_self b rest))
    simp only [drainBundlesJS]
    rcases hag : tickAgentsJS t e d b.agents with ⟨agents, pw⟩
    rcases hrec : drainBundlesJS t e d rest with ⟨tail, qw⟩
    rw [hag] at hq2
    rw [hrec] at hq1
    have hp : pw = JNum.fin q2 := hq2
    have hqw : qw = JNum.fin q1 := hq1
    subst hp
    subst hqw
    split <;> exact ⟨q2 + q1, by simp [JNum.add], by linarith⟩

/-- C2 (amended): on every steady tick of an active instance whose
snapshots carry only finite numeric values (non-infinite stats,
absent-or-finite power multipliers) and whose progress is a finite
number at most 100, progress does not decrease and never exceeds 100; a
tick that brings progress to 100 or more clamps it to exactly 100 and
sets the status to "cleared" within that same tick (the instance is
archived with progress 100 at the head of the archive).  Stated over
the JavaScript-semantics tick `tickThreatsJS`, so the finiteness
hypotheses are explicit rather than baked into the types; without them
the property fails (see the counterexample). -/
theorem progress_monotone_clamped_js (s : JServerState) (nowMs : ℚ)
    (tmpl : ThreatTemplate) (suffix : String) (t : JThreatInstance) (p : ℚ)
    (hact : s.activeThreat = some t) (hst : t.status = Status.active)
    (helap : s.lastTickMs < nowMs) (hexp : nowMs < t.expiresAtMs)
    (hprog : t.progress = JNum.fin p) (h100 : p ≤ 100)
    (hfin : ∀ b ∈ t.assignedAgents, ∀ a ∈ b.agents,
      SafeStat a.agent.courage ∧ SafeStat a.agent.investigation ∧
      SafeStat a.agent.occultism ∧ MultFin a.agent.powerMultiplier) :
    (∀ t1, (tickThreatsJS s nowMs tmpl suffix).activeThreat = some t1 →
      ∃ p1 : ℚ, t1.progress = JNum.fin p1 ∧ p ≤ p1 ∧ p1 < 100 ∧
        t1.status = Status.active) ∧
    ((tickThreatsJS s nowMs tmpl suffix).activeThreat = none →
      ∀ t1, (tickThreatsJS s nowMs tmpl suffix).finishedThreats.head? = some t1 →
        t1.progress = JNum.fin 100 ∧ t1.status = Status.cleared) := by
  have hel : ¬ ((nowMs - s.lastTickMs) / 1000 ≤ 0) := by
    push_neg
    exact div_pos (by linarith) (by norm_num)
  have hexp2 : ¬ (t.expiresAtMs ≤ nowMs ∧ t.status = Status.active) := by
    intro h
    exact absurd h.1 (not_le.mpr hexp)
  have hst2 : ¬ (t.status ≠ Status.active) := by simp [hst]
  unfold tickThreatsJS
  rw [hact]
  simp only [if_neg hel, if_neg hexp2, if_neg hst2]
  set pair := drainBundlesJS t ((nowMs - s.lastTickMs) / 1000)
    (1 / getDifficultySpeedJ t) t.assignedAgents with hpair
  obtain ⟨q, hq, hq0⟩ := drainBundlesJS_power_fin t ((nowMs - s.lastTickMs) / 1000)
    (1 / getDifficultySpeedJ t) t.assignedAgents hfin
  rw [← hpair] at hq
  have key : (JNum.fin 100).jmin (t.progress.orZero.add
      ((((JNum.fin ((nowMs - s.lastTickMs) / 1000)).mul pair.2).mul
        (JNum.fin WT_BASE_RATE)).mul (JNum.fin (getDifficultySpeedJ t)))) =
      JNum.fin (min 100 (p + (nowMs - s.lastTickMs) / 1000 * q *
        WT_BASE_RATE * getDifficultySpeedJ t)) := by
    rw [hprog, hq, JNum.orZero_fin]
    simp [JNum.mul, JNum.add, JNum.jmin]
  rw [key]
  have hdelta : 0 ≤ (nowMs - s.lastTickMs) / 1000 * q *
      WT_BASE_RATE * getDifficultySpeedJ t := by
    have h1 : 0 < (nowMs - s.lastTickMs) / 1000 := div_pos (by linarith) (by norm_num)
    have h3 : (0:ℚ) ≤ WT_BASE_RATE := by
      norm_num [WT_BASE_RATE, WORLD_THREAT_BASE_PROGRESS_RATE]
    have h4 : (0:ℚ) ≤ getDifficultySpeedJ t :=
      le_trans zero_le_one (one_le_getDifficultySpeedJ t)
    exact mul_nonneg (mul_nonneg (mul_nonneg h1.le hq0) h3) h4
  simp only [JNum.jle, decide_eq_true_eq]
  by_cases hcl : (100:ℚ) ≤ min 100 (p + (nowMs - s.lastTickMs) / 1000 * q *
      WT_BASE_RATE * getDifficultySpeedJ t)
  · rw [if_pos hcl]
    constructor
    · intro t1 ht1
      simp [endActiveThreatJS] at ht1
    · intro _ t1 ht1
      simp only [endActiveThreatJS] at ht1
      rw [head?_take50, Option.some.injEq] at ht1
      subst ht1
      exact ⟨congrArg JNum.fin (le_antisymm (min_le_left _ _) hcl), rfl⟩
  · rw [if_neg hcl]
    constructor
    · intro t1 ht1
      simp only [Option.some.injEq] at ht1
      subst ht1
      exact ⟨min 100 (p + (nowMs - s.lastTickMs) / 1000 * q *
          WT_BASE_RATE * getDifficultySpeedJ t), rfl,
        le_min h100 (by linarith), not_le.mp hcl, hst⟩
    · intro hnone
      simp at hnone

/-- A concrete finite-valued agent for the C2 witness. -/
def finAgent : JAgent :=
  { courage := JVal.num (JNum.fin 5)
    investigation := JVal.num (JNum.fin 4)
    occultism := JVal.num (JNum.fin 3)
    skills := some []
    powerMultiplier := JVal.undef }

/-- A concrete finite-valued agent state for the C2 witness. -/
def finAgentState : JAgentState :=
  { agent := finAgent
    health := some (JNum.fin 30)
    sanity := some (JNum.fin 30)
    healthLossMultiplier := none
    sanityLossMultiplier := none }

/-- The finite agent's bundle. -/
def finBundle : JBundle :=
  { playerId := "p1", directorName := "D", agents := [finAgentState] }

/-- A concrete mid-flight instance at progress 50 with the finite
agent. -/
def finThreat : JThreatInstance :=
  { instanceId := "wt-fin"
    primaryStat := "Occultism"
    skills := []
    difficulty := some 10
    progress := JNum.fin 50
    status := Status.active
    assignedAgents := [finBundle]
    lastTickMs := 0
    expiresAtMs := 14400000
    eligibleForRewardByPlayerId := []
    endedAtMs := none }

/-- A concrete server state owning `finThreat`. -/
def finState : JServerState :=
  { activeThreat := some finThreat
    finishedThreats := []
    lastTickMs := 0
    cooldownUntilMs := 0 }

/-- Witness for C2: a concrete 1-second tick of the finite sample state
moves progress from 50 to a finite value in [50, 100) on a still-active
instance. -/
theorem progress_monotone_clamped_js_witness :
    ∃ p1 : ℚ,
      ((tickThreatsJS finState 1000 sampleTemplate "w").activeThreat.getD
        default).progress = JNum.fin p1 ∧ (50:ℚ) ≤ p1 ∧ p1 < 100 ∧
      ((tickThreatsJS finState 1000 sampleTemplate "w").activeThreat.getD
        default).status = Status.active :=
  (progress_monotone_clamped_js finState 1000 sampleTemplate "w" finThreat 50
    rfl rfl (by norm_num [finState]) (by norm_num [finState, finThreat]) rfl
    (by norm_num)
    (by
      intro b hb a ha
      simp only [finThreat, finBundle, List.mem_singleton] at hb
      subst hb
      simp only [List.mem_singleton] at ha
      subst ha
      exact ⟨⟨by decide, by decide⟩, ⟨by decide, by decide⟩,
        ⟨by decide, by decide⟩, Or.inl rfl⟩)).1 _
    (by norm_num +decide [tickThreatsJS, finState, finThreat, finBundle, finAgentState, finAgent,
      drainBundlesJS, tickAgentsJS, computeAgentPower, JThreatInstance.powerView,
      getDifficultySpeedJ, spawnThreatJS, endActiveThreatJS,
      buildEligibilityMapJS, JNum.add, JNum.mul, JNum.sub, JNum.neg, JNum.jle,
      JNum.jmin, JNum.orZero, JNum.max0, JVal.orZero, HP_LOSS_PER_MIN,
      SAN_LOSS_PER_MIN, WT_BASE_RATE, WORLD_THREAT_BASE_PROGRESS_RATE,
      AGENT_HEALTH_LOSS_PER_MINUTE, AGENT_SANITY_LOSS_PER_MINUTE])

/-- A poisoned but reachable agent state: an `Infinity` courage stat
(JSON `1e999` parses to Infinity, which is truthy and survives the
`a.courage || 0` sanitize guard) together with a numeric power
multiplier of 0 (passing the typeof check), whose power is therefore
`Math.max(0, Infinity * 0) = NaN`. -/
def nanAgent : JAgent :=
  { courage := JVal.num JNum.inf
    investigation := JVal.undef
    occultism := JVal.undef
    skills := none
    powerMultiplier := JVal.num (JNum.fin 0) }

/-- The poisoned agent's tick-level state: healthy, default
multipliers, but carrying `nanAgent`. -/
def nanAgentState : JAgentState :=
  { agent := nanAgent
    health := some (JNum.fin 30)
    sanity := some (JNum.fin 30)
    healthLossMultiplier := none
    sanityLossMultiplier := none }

/-- The poisoned agent's bundle. -/
def nanBundle : JBundle :=
  { playerId := "p1", directorName := "D", agents := [nanAgentState] }

/-- An active mid-flight instance at progress 50 carrying the poisoned
agent. -/
def nanThreat : JThreatInstance :=
  { instanceId := "wt-nan"
    primaryStat := "Courage"
    skills := []
    difficulty := some 10
    progress := JNum.fin 50
    status := Status.active
    assignedAgents := [nanBundle]
    lastTickMs := 0
    expiresAtMs := 100000000
    eligibleForRewardByPlayerId := []
    endedAtMs := none }

/-- A concrete server state owning `nanThreat`. -/
def nanState : JServerState :=
  { activeThreat := some nanThreat
    finishedThreats := []
    lastTickMs := 0
    cooldownUntilMs := 0 }

/-- Counterexample for C2 as stated: from the active instance at
progress 50 with the poisoned agent, the first tick (at 60 s) computes
NaN total power, so `Math.min(100, (50 || 0) + NaN)` sets progress to
NaN while the instance stays active (`NaN >= 100` is false); at the
second tick (15 minutes later) the agent's sanity has drained to ≤ 0,
the agent and its emptied bundle are dropped, and
`(activeThreat.progress || 0)` resets the NaN to 0 — the instance is
still active with progress 0 < 50, so progress strictly decreased
across ticks while status was "active". -/
theorem progress_decreases_on_nan_poisoning :
    nanThreat.status = Status.active ∧
    nanThreat.progress = JNum.fin 50 ∧
    (tickThreatsJS nanState 60000 sampleTemplate "w").activeThreat.isSome
      = true ∧
    ((tickThreatsJS nanState 60000 sampleTemplate "w").activeThreat.getD
      default).status = Status.active ∧
    ((tickThreatsJS nanState 60000 sampleTemplate "w").activeThreat.getD
      default).progress = JNum.nan ∧
    (tickThreatsJS (tickThreatsJS nanState 60000 sampleTemplate "w") 960000
      sampleTemplate "w").activeThreat.isSome = true ∧
    ((tickThreatsJS (tickThreatsJS nanState 60000 sampleTemplate "w") 960000
      sampleTemplate "w").activeThreat.getD default).status
      = Status.active ∧
    ((tickThreatsJS (tickThreatsJS nanState 60000 sampleTemplate "w") 960000
      sampleTemplate "w").activeThreat.getD default).progress
      = JNum.fin 0 := by
  norm_num +decide [tickThreatsJS, nanState, nanThreat, nanBundle, nanAgentState, nanAgent,
    drainBundlesJS, tickAgentsJS, computeAgentPower, JThreatInstance.powerView,
    getDifficultySpeedJ, spawnThreatJS, endActiveThreatJS,
    buildEligibilityMapJS, JNum.add, JNum.mul, JNum.sub, JNum.neg, JNum.jle,
    JNum.jmin, JNum.orZero, JNum.max0, JVal.orZero, HP_LOSS_PER_MIN,
    SAN_LOSS_PER_MIN, WT_BASE_RATE, WORLD_THREAT_BASE_PROGRESS_RATE,
    AGENT_HEALTH_LOSS_PER_MINUTE, AGENT_SANITY_LOSS_PER_MINUTE]

/-! ## Claim C7 — cooldown after termination -/

/-- Operations that should not be able to spawn before the cooldown
deadline `c`: ticks strictly before `c` and anything that is not the
cooldown-bypassing admin cycle. -/
def OpBeforeCooldown (c : ℚ) : Op → Prop
  | Op.tick nowMs _ _ => nowMs < c
  | Op.adminCycle _ _ _ => False
  | _ => True

/-- While no threat is active, an operation covered by
`OpBeforeCooldown` neither spawns nor moves the cooldown deadline. -/
lemma step_no_spawn {s : ServerState} (hact : s.activeThreat = none)
    {op : Op} (hop : OpBeforeCooldown s.cooldownUntilMs op) :
    (step s op).activeThreat = none ∧
      (step s op).cooldownUntilMs = s.cooldownUntilMs := by
  cases op with
  | tick nowMs tmpl sfx =>
    simp only [step, tickThreats, hact]
    by_cases hel : (nowMs - s.lastTickMs) / 1000 ≤ 0
    · rw [if_pos hel]
      exact ⟨hact, rfl⟩
    · rw [if_neg hel, if_neg (not_le.mpr hop)]
      exact ⟨rfl, rfl⟩
  | assign p d ags =>
    simp only [step, postAssign, hact]
    simp
  | assignById iid p d ags =>
    simp only [step, postAssignById, hact]
    simp
  | unassign p =>
    simp only [step, postUnassign, hact]
    by_cases hp : p = "" <;> simp [hp, hact]
  | unassignById iid p =>
    simp only [step, postUnassignById, hact]
    by_cases hp : p = "" <;> simp [hp, hact]
  | adminFinish nowMs =>
    simp only [step, adminFinish, hact]
    simp
  | adminCycle nowMs tmpl sfx =>
    exact hop.elim

/-- While no threat is active, a whole run of covered operations
neither spawns nor moves the cooldown deadline. -/
lemma run_no_spawn : ∀ (ops : List Op) (s : ServerState),
    s.activeThreat = none →
    (∀ op ∈ ops, OpBeforeCooldown s.cooldownUntilMs op) →
    (run s ops).activeThreat = none ∧
      (run s ops).cooldownUntilMs = s.cooldownUntilMs := by
  intro ops
  induction ops with
  | nil =>
    intro s h _
    exact ⟨h, rfl⟩
  | cons op rest ih =>
    intro s hact hall
    have h1 := step_no_spawn hact (hall op (List.mem_cons_self op rest))
    have h2 := ih (step s op) h1.1 (by
      intro o ho
      rw [h1.2]
      exact hall o (List.mem_cons_of_mem _ ho))
    have hrun : run s (op :: rest) = run (step s op) rest := rfl
    rw [hrun, h2.1, h2.2, h1.2]
    exact ⟨rfl, rfl⟩

/-- C7: every terminating transition (natural expiry or clear inside a
tick, or the admin force-finish) sets the cooldown deadline to the
termination time plus `COOLDOWN_MIN` minutes (30); while no instance is
active, no subsequent sequence of ticks before that deadline (nor any
other non-cycle request) spawns a new instance or moves the deadline;
only the admin force-cycle spawns unconditionally. -/
theorem cooldown_after_termination :
    COOLDOWN_MIN = 30 ∧
    (∀ (s : ServerState) (nowMs : ℚ) (t : ThreatInstance) (st : Status),
      s.activeThreat = some t →
      (endActiveThreat s nowMs st).cooldownUntilMs =
        nowMs + COOLDOWN_MIN * 60 * 1000) ∧
    (∀ (s : ServerState) (nowMs : ℚ) (tmpl : ThreatTemplate) (sfx : String)
        (t : ThreatInstance),
      s.activeThreat = some t → t.status = Status.active →
      (step s (Op.tick nowMs tmpl sfx)).activeThreat = none →
      (step s (Op.tick nowMs tmpl sfx)).cooldownUntilMs =
        nowMs + COOLDOWN_MIN * 60 * 1000) ∧
    (∀ (s : ServerState) (nowMs : ℚ) (t : ThreatInstance),
      s.activeThreat = some t →
      (step s (Op.adminFinish nowMs)).cooldownUntilMs =
        nowMs + COOLDOWN_MIN * 60 * 1000) ∧
    (∀ (ops : List Op) (s : ServerState), s.activeThreat = none →
      (∀ op ∈ ops, OpBeforeCooldown s.cooldownUntilMs op) →
      (run s ops).activeThreat = none) ∧
    (∀ (s : ServerState) (nowMs : ℚ) (tmpl : ThreatTemplate) (sfx : String),
      ((step s (Op.adminCycle nowMs tmpl sfx)).activeThreat).isSome = true) := by
  refine ⟨rfl, ?_, ?_, ?_, ?_, ?_⟩
  · intro s nowMs t st hact
    simp only [endActiveThreat, hact]
  · intro s nowMs tmpl sfx t hact hst hnone
    have hst2 : ¬ (t.status ≠ Status.active) := by simp [hst]
    simp only [step, tickThreats, hact] at hnone ⊢
    by_cases hel : (nowMs - s.lastTickMs) / 1000 ≤ 0
    · rw [if_pos hel] at hnone
      exact absurd (hact ▸ hnone) (by simp)
    · rw [if_neg hel] at hnone ⊢
      by_cases hexpc : t.expiresAtMs ≤ nowMs ∧ t.status = Status.active
      · rw [if_pos hexpc]
        simp [endActiveThreat]
      · rw [if_neg hexpc] at hnone ⊢
        rw [if_neg hst2] at hnone ⊢
        split at hnone
        · rename_i hcl
          rw [if_pos hcl]
          simp [endActiveThreat]
        · simp at hnone
  · intro s nowMs t hact
    simp only [step, adminFinish, hact]
    simp [endActiveThreat]
  · intro ops s h hall
    exact (run_no_spawn ops s h hall).1
  · intro s nowMs tmpl sfx
    rfl

/-- Witness for C7: ending the concrete sample state's active threat at
time 5000 sets the cooldown deadline to 5000 + 30 minutes. -/
theorem cooldown_after_termination_witness :
    (endActiveThreat sampleState 5000 Status.expired).cooldownUntilMs =
      5000 + COOLDOWN_MIN * 60 * 1000 :=
  cooldown_after_termination.2.1 sampleState 5000 sampleThreat Status.expired rfl

/-! ## Claims C8 and C10 — assignment semantics -/

/-- Replace-or-append leaves exactly one bundle for the submitted
player when the player had at most one bundle before. -/
lemma upsertBundle_filter_self (bs : List Bundle) (b : Bundle)
    (hcount : (bs.countP fun x => x.playerId == b.playerId) ≤ 1) :
    (upsertBundle bs b).filter (fun x => x.playerId == b.playerId) = [b] := by
  induction bs with
  | nil => simp [upsertBundle]
  | cons x xs ih =>
    simp only [upsertBundle]
    by_cases hx : x.playerId = b.playerId
    · rw [if_pos hx]
      rw [List.countP_cons] at hcount
      simp only [hx, beq_self_eq_true, if_pos] at hcount
      have hzero : (xs.countP fun y => y.playerId == b.playerId) = 0 := by omega
      rw [List.filter_cons]
      simp only [beq_self_eq_true, if_pos]
      rw [List.filter_eq_nil_iff.mpr, List.cons.injEq]
      · exact ⟨rfl, rfl⟩
      · intro y hy
        have := List.countP_eq_zero.mp hzero y hy
        simpa using this
    · rw [if_neg hx]
      rw [List.filter_cons]
      have hxb : (x.playerId == b.playerId) = false := by simpa using hx
      rw [hxb]
      simp only [Bool.false_eq_true, if_false]
      apply ih
      rw [List.countP_cons, hxb] at hcount
      simpa using hcount

/-- Replace-or-append does not change any other player's bundles. -/
lemma upsertBundle_filter_other (bs : List Bundle) (b : Bundle) :
    (upsertBundle bs b).filter (fun x => !(x.playerId == b.playerId)) =
      bs.filter fun x => !(x.playerId == b.playerId) := by
  induction bs with
  | nil => simp [upsertBundle]
  | cons x xs ih =>
    simp only [upsertBundle]
    by_cases hx : x.playerId = b.playerId
    · rw [if_pos hx]
      rw [List.filter_cons, List.filter_cons]
      simp [hx]
    · rw [if_neg hx]
      rw [List.filter_cons, List.filter_cons]
      have hxb : (x.playerId == b.playerId) = false := by simpa using hx
      simp only [hxb, Bool.not_false, if_pos, ih]

/-- C8: a successful assign call on an active instance leaves exactly
one bundle for the submitting player (given the reachable-state fact
that the player had at most one bundle before), containing the
most recent submission's agents truncated to the first 3 and sanitized
with the documented defaults (missing health and sanity become 30,
missing stats become 0); re-assigning overwrites and never duplicates. -/
theorem assign_single_bundle (s : ServerState) (p d : String)
    (ags : List ClientAgent) (t : ThreatInstance)
    (hact : s.activeThreat = some t) (hst : t.status = Status.active)
    (hp : p ≠ "") (hd : d ≠ "")
    (hcount : (t.assignedAgents.countP fun x => x.playerId == p) ≤ 1) :
    postAssign s p d (some ags) =
      Except.ok { s with activeThreat := some (applyAssign t p d ags) } ∧
    ((applyAssign t p d ags).assignedAgents.filter
        fun x => x.playerId == p) =
      [{ playerId := p, directorName := d,
         agents := (ags.take 3).map sanitizeAgent }] ∧
    (∀ a : ClientAgent, a.health = none → (sanitizeAgent a).health = some 30) ∧
    (∀ a : ClientAgent, a.sanity = none → (sanitizeAgent a).sanity = some 30) ∧
    (∀ a : ClientAgent, a.courage = none → (sanitizeAgent a).courage = 0) := by
  refine ⟨?_, ?_, ?_, ?_, ?_⟩
  · simp only [postAssign, hact, hst]
    rw [if_neg (by simp), if_neg (by simp [hp, hd])]
  · exact upsertBundle_filter_self t.assignedAgents
      { playerId := p, directorName := d,
        agents := (ags.take 3).map sanitizeAgent } hcount
  · intro a ha
    simp [sanitizeAgent, ha]
  · intro a ha
    simp [sanitizeAgent, ha]
  · intro a ha
    simp [sanitizeAgent, ha]

/-- C10: a successful assign call mutates only the submitting player's
entry in `assignedAgents`: the instance's progress, status, lastTick,
expiry, identity and every other player's bundle are unchanged, and so
are the archive, the tick clock and the cooldown (in particular,
assigning neither runs a tick nor applies any drain). -/
theorem assign_frame (s : ServerState) (p d : String)
    (ags : List ClientAgent) (t : ThreatInstance)
    (hact : s.activeThreat = some t) (hst : t.status = Status.active)
    (hp : p ≠ "") (hd : d ≠ "") :
    postAssign s p d (some ags) =
      Except.ok { s with activeThreat := some (applyAssign t p d ags) } ∧
    (applyAssign t p d ags).progress = t.progress ∧
    (applyAssign t p d ags).status = t.status ∧
    (applyAssign t p d ags).lastTickMs = t.lastTickMs ∧
    (applyAssign t p d ags).expiresAtMs = t.expiresAtMs ∧
    (applyAssign t p d ags).instanceId = t.instanceId ∧
    ((applyAssign t p d ags).assignedAgents.filter
        fun x => !(x.playerId == p)) =
      (t.assignedAgents.filter fun x => !(x.playerId == p)) ∧
    (∀ s1, postAssign s p d (some ags) = Except.ok s1 →
      s1.finishedThreats = s.finishedThreats ∧
      s1.lastTickMs = s.lastTickMs ∧
      s1.cooldownUntilMs = s.cooldownUntilMs) := by
  refine ⟨?_, rfl, rfl, rfl, rfl, rfl,
    upsertBundle_filter_other t.assignedAgents
      { playerId := p, directorName := d,
        agents := (ags.take 3).map sanitizeAgent }, ?_⟩
  · simp only [postAssign, hact, hst]
    rw [if_neg (by simp), if_neg (by simp [hp, hd])]
  · intro s1 h
    refine ⟨postAssign_finishedThreats h, ?_, ?_⟩
    · obtain ⟨t0, _, _, _, _, rfl⟩ := postAssign_ok_shape h
      rfl
    · obtain ⟨t0, _, _, _, _, rfl⟩ := postAssign_ok_shape h
      rfl

/-- A concrete raw client agent with several missing fields. -/
def sampleClientAgent : ClientAgent :=
  { agentId := "a9"
    name := "N"
    portraitUrl := ""
    courage := none
    investigation := some 4
    occultism := none
    health := none
    sanity := none
    skills := none
    statModifiers := none
    powerMultiplier := none
    healthLossMultiplier := none
    sanityLossMultiplier := none }

/-- Witness for C8: a concrete assign of a new player onto the sample
threat produces exactly one bundle for that player with the sanitized,
truncated snapshot list. -/
theorem assign_single_bundle_witness :
    ((applyAssign sampleThreat "p2" "D2" [sampleClientAgent]).assignedAgents.filter
        fun x => x.playerId == "p2") =
      [{ playerId := "p2", directorName := "D2",
         agents := ([sampleClientAgent].take 3).map sanitizeAgent }] :=
  (assign_single_bundle sampleState "p2" "D2" [sampleClientAgent] sampleThreat
    rfl rfl (by decide) (by decide) (by decide)).2.1

/-- Witness for C10: the same concrete assign leaves progress, the tick
timestamp and the other player's bundle untouched. -/
theorem assign_frame_witness :
    (applyAssign sampleThreat "p2" "D2" [sampleClientAgent]).progress =
      sampleThreat.progress ∧
    (applyAssign sampleThreat "p2" "D2" [sampleClientAgent]).lastTickMs =
      sampleThreat.lastTickMs ∧
    ((applyAssign sampleThreat "p2" "D2" [sampleClientAgent]).assignedAgents.filter
        fun x => !(x.playerId == "p2")) =
      (sampleThreat.assignedAgents.filter fun x => !(x.playerId == "p2")) :=
  have h := assign_frame sampleState "p2" "D2" [sampleClientAgent] sampleThreat
    rfl rfl (by decide) (by decide)
  ⟨h.2.1, h.2.2.2.1, h.2.2.2.2.2.2.1⟩

/-! ## Claim C9 — unassign semantics -/

/-- C9 (amended): for requests carrying a non-empty playerId, the
instance-less unassign endpoint always succeeds — removing the player's
bundle if present, a no-op when absent, and a no-op (not an error) when
no active instance exists — and fails exactly when the playerId is
missing; the instance-id endpoint has the same removal semantics but
additionally fails with a not-found error when there is no active
instance (or the path id does not match), so only one of the two entry
points satisfies the original claim. -/
theorem unassign_semantics :
    (∀ (s : ServerState) (p : String), p ≠ "" →
      (postUnassign s p).isOk = true) ∧
    (∀ (s : ServerState) (p : String), p ≠ "" → s.activeThreat = none →
      postUnassign s p = Except.ok s) ∧
    (∀ (s : ServerState) (p : String) (t : ThreatInstance), p ≠ "" →
      s.activeThreat = some t →
      (∀ b ∈ t.assignedAgents, b.playerId ≠ p) →
      postUnassign s p = Except.ok s) ∧
    (∀ (s : ServerState) (p : String) (t : ThreatInstance) (s1 : ServerState),
      postUnassign s p = Except.ok s1 → s1.activeThreat = some t →
      s.activeThreat.isSome = true →
      ∀ b ∈ t.assignedAgents, b.playerId ≠ p) ∧
    (∀ (s : ServerState) (p : String), p = "" →
      postUnassign s p = Except.error "Missing playerId") ∧
    (∀ (s : ServerState) (iid p : String), p ≠ "" → s.activeThreat = none →
      postUnassignById s iid p =
        Except.error "Threat not found or not active.") ∧
    (∀ (s : ServerState) (iid p : String) (t : ThreatInstance), p ≠ "" →
      s.activeThreat = some t → t.instanceId = iid →
      (postUnassignById s iid p).isOk = true) := by
  refine ⟨?_, ?_, ?_, ?_, ?_, ?_, ?_⟩
  · intro s p hp
    simp only [postUnassign, if_neg hp]
    cases s.activeThreat <;> rfl
  · intro s p hp hact
    simp only [postUnassign, if_neg hp, hact]
  · intro s p t hp hact habs
    have hfix : t.assignedAgents.filter (fun b => decide (b.playerId ≠ p)) =
        t.assignedAgents := by
      rw [List.filter_eq_self]
      intro b hb
      simpa using habs b hb
    simp only [postUnassign, if_neg hp, hact, hfix]
    rw [← hact]
  · intro s p t s1 hok hs1 hsome
    unfold postUnassign at hok
    split at hok
    · exact absurd hok (by simp)
    · split at hok
      · rename_i hact
        rw [← Except.ok.inj hok, hact] at hs1
        simp [hact] at hsome
      · rename_i t0 hact
        rw [← Except.ok.inj hok] at hs1
        simp only [Option.some.injEq] at hs1
        subst hs1
        intro b hb
        have := (List.mem_filter.mp hb).2
        simpa using this
  · intro s p hp
    simp [postUnassign, hp]
  · intro s iid p hp hact
    simp only [postUnassignById, if_neg hp, hact]
  · intro s iid p t hp hact hiid
    simp only [postUnassignById, if_neg hp, hact]
    rw [if_neg (by simp [hiid])]
    rfl

/-- Witness for C9: unassigning a concrete player via the instance-less
endpoint succeeds at process start when nothing is active. -/
theorem unassign_semantics_witness :
    (postUnassign initState "p1").isOk = true :=
  unassign_semantics.1 initState "p1" (by decide)

/-- Counterexample for C9 as stated: the instance-id unassign entry
point errors — it is not a no-op success — when no active instance
exists, even with a non-empty playerId. -/
theorem unassignById_fails_without_active :
    postUnassignById initState "wt-x" "p1" =
      Except.error "Threat not found or not active." := by
  simp [postUnassignById, initState]

/-! ## Claim C3 — contribution ledger (modelled from the spec) -/

/-- Adding to a key raises exactly that key's total. -/
lemma lookupAssoc_addAssoc_self (l : List (String × ℚ)) (k : String) (v : ℚ) :
    lookupAssoc (addAssoc l k v) k = lookupAssoc l k + v := by
  induction l with
  | nil => simp [addAssoc, lookupAssoc]
  | cons e rest ih =>
    simp only [addAssoc]
    by_cases he : e.1 = k
    · rw [if_pos he]
      have ht : (e.1 == k) = true := by simpa using he
      simp [lookupAssoc, List.find?_cons, ht]
    · rw [if_neg he]
      have hf : (e.1 == k) = false := by simpa using he
      simp only [lookupAssoc, List.find?_cons, hf] at ih ⊢
      exact ih

/-- Adding to a key leaves every other key's total unchanged. -/
lemma lookupAssoc_addAssoc_other (l : List (String × ℚ)) (k k2 : String)
    (v : ℚ) (h : k2 ≠ k) :
    lookupAssoc (addAssoc l k v) k2 = lookupAssoc l k2 := by
  induction l with
  | nil =>
    have hf : (k == k2) = false := by simpa using (Ne.symm h)
    simp [addAssoc, lookupAssoc, List.find?_cons, hf]
  | cons e rest ih =>
    simp only [addAssoc]
    by_cases he : e.1 = k
    · rw [if_pos he]
      have hf : (e.1 == k2) = false := by
        subst he
        simpa using Ne.symm h
      simp [lookupAssoc, List.find?_cons, hf]
    · rw [if_neg he]
      by_cases he2 : e.1 = k2
      · have ht : (e.1 == k2) = true := by simpa using he2
        simp [lookupAssoc, List.find?_cons, ht]
      · have hf : (e.1 == k2) = false := by simpa using he2
        simp only [lookupAssoc, List.find?_cons, hf] at ih ⊢
        exact ih

/-- Adding a non-negative amount never lowers any total. -/
lemma lookupAssoc_addAssoc_le (l : List (String × ℚ)) (k k2 : String)
    (v : ℚ) (hv : 0 ≤ v) :
    lookupAssoc l k2 ≤ lookupAssoc (addAssoc l k v) k2 := by
  by_cases h : k2 = k
  · subst h
    rw [lookupAssoc_addAssoc_self]
    linarith
  · rw [lookupAssoc_addAssoc_other l k k2 v h]

/-- Adding to a bucket key raises exactly that bucket. -/
lemma lookupBucket_addBucket_self (l : List (ℚ × ℚ)) (k v : ℚ) :
    lookupBucket (addBucket l k v) k = lookupBucket l k + v := by
  induction l with
  | nil => simp [addBucket, lookupBucket]
  | cons e rest ih =>
    simp only [addBucket]
    by_cases he : e.1 = k
    · rw [if_pos he]
      have ht : (e.1 == k) = true := by simpa using he
      simp [lookupBucket, List.find?_cons, ht]
    · rw [if_neg he]
      have hf : (e.1 == k) = false := by simpa using he
      simp only [lookupBucket, List.find?_cons, hf] at ih ⊢
      exact ih

/-- Crediting a player raises exactly that player's bucket for the key. -/
lemma playerBuckets_addPlayerBucket_self (B : List (String × List (ℚ × ℚ)))
    (p : String) (k v : ℚ) :
    lookupBucket ((((addPlayerBucket B p k v).find? fun e => e.1 == p).map
      Prod.snd).getD []) k =
    lookupBucket (((B.find? fun e => e.1 == p).map Prod.snd).getD []) k + v := by
  induction B with
  | nil => simp [addPlayerBucket, lookupBucket, List.find?_cons]
  | cons e rest ih =>
    simp only [addPlayerBucket]
    by_cases he : e.1 = p
    · rw [if_pos he]
      have ht : (e.1 == p) = true := by simpa using he
      simp only [List.find?_cons, ht, Option.map_some, Option.getD_some]
      exact lookupBucket_addBucket_self e.2 k v
    · rw [if_neg he]
      have hf : (e.1 == p) = false := by simpa using he
      simp only [List.find?_cons, hf] at ih ⊢
      exact ih

/-- Non-negative credits never lower any player's total across the
per-bundle fold of one tick. -/
lemma totals_fold_le (nowMs elapsedSec : ℚ) (he : 0 ≤ elapsedSec) :
    ∀ (contribs : List (String × ℚ)) (L : ContributionLedger) (p : String),
      (∀ e ∈ contribs, 0 ≤ e.2) →
      lookupAssoc L.totals p ≤
        lookupAssoc (contribs.foldl
          (fun acc pb => recordContribution acc pb.1 (pb.2 * elapsedSec) nowMs)
          L).totals p := by
  intro contribs
  induction contribs with
  | nil =>
    intro L p _
    simp [run]
  | cons c rest ih =>
    intro L p hall
    simp only [List.foldl_cons]
    refine le_trans ?_ (ih _ p fun e hee => hall e (List.mem_cons_of_mem _ hee))
    exact lookupAssoc_addAssoc_le L.totals c.1 p (c.2 * elapsedSec)
      (mul_nonneg (hall c (List.mem_cons_self c rest)) he)

/-- Pruning leaves only bucket keys within the retention window. -/
lemma retentionOK_pruneLedger (L : ContributionLedger) (nowMs : ℚ) :
    retentionOK (pruneLedger L nowMs) nowMs = true := by
  rw [retentionOK, List.all_eq_true]
  intro pb hpb
  rw [List.all_eq_true]
  intro e he
  simp only [pruneLedger, List.mem_map] at hpb
  obtain ⟨pb0, hpb0, rfl⟩ := hpb
  simp only at he
  exact (List.mem_filter.mp he).2

/-- The minute key is idempotent: minute keys are minute-aligned. -/
lemma minuteKeyMs_idem (nowMs : ℚ) :
    minuteKeyMs (minuteKeyMs nowMs) = minuteKeyMs nowMs := by
  unfold minuteKeyMs
  have h : (((⌊nowMs / 60000⌋ : ℤ) : ℚ) * 60000) / 60000 =
      ((⌊nowMs / 60000⌋ : ℤ) : ℚ) := by
    field_simp
  rw [h, Int.floor_intCast]

/-- Adding an aligned key keeps one player's bucket keys aligned. -/
lemma aligned_addBucket {l : List (ℚ × ℚ)} {k v : ℚ}
    (hl : ∀ e ∈ l, minuteKeyMs e.1 = e.1) (hk : minuteKeyMs k = k) :
    ∀ e ∈ addBucket l k v, minuteKeyMs e.1 = e.1 := by
  induction l with
  | nil =>
    intro e he
    simp only [addBucket, List.mem_singleton] at he
    subst he
    exact hk
  | cons x xs ih =>
    intro e he
    simp only [addBucket] at he
    by_cases hx : x.1 = k
    · rw [if_pos hx] at he
      rcases List.mem_cons.mp he with rfl | hmem
      · exact hl x (List.mem_cons_self x xs)
      · exact hl e (List.mem_cons_of_mem _ hmem)
    · rw [if_neg hx] at he
      rcases List.mem_cons.mp he with rfl | hmem
      · exact hl _ (List.mem_cons_self _ _)
      · exact ih (fun e2 he2 => hl e2 (List.mem_cons_of_mem _ he2)) e hmem

/-- Crediting with an aligned key keeps all bucket keys aligned. -/
lemma aligned_addPlayerBucket {B : List (String × List (ℚ × ℚ))} {p : String}
    {k v : ℚ} (hB : ∀ pb ∈ B, ∀ e ∈ pb.2, minuteKeyMs e.1 = e.1)
    (hk : minuteKeyMs k = k) :
    ∀ pb ∈ addPlayerBucket B p k v, ∀ e ∈ pb.2, minuteKeyMs e.1 = e.1 := by
  induction B with
  | nil =>
    intro pb hpb e he
    simp only [addPlayerBucket, List.mem_singleton] at hpb
    subst hpb
    simp only [List.mem_singleton] at he
    subst he
    exact hk
  | cons x xs ih =>
    intro pb hpb e he
    simp only [addPlayerBucket] at hpb
    by_cases hx : x.1 = p
    · rw [if_pos hx] at hpb
      rcases List.mem_cons.mp hpb with rfl | hmem
      · exact aligned_addBucket
          (fun e2 he2 => hB x (List.mem_cons_self x xs) e2 he2) hk e he
      · exact hB pb (List.mem_cons_of_mem _ hmem) e he
    · rw [if_neg hx] at hpb
      rcases List.mem_cons.mp hpb with rfl | hmem
      · exact hB _ (List.mem_cons_self _ _) e he
      · exact ih (fun pb2 hpb2 => hB pb2 (List.mem_cons_of_mem _ hpb2)) pb hmem e he

/-- The per-bundle credit fold of one tick keeps bucket keys aligned. -/
lemma aligned_fold (nowMs elapsedSec : ℚ) :
    ∀ (contribs : List (String × ℚ)) (L : ContributionLedger),
      (∀ pb ∈ L.buckets, ∀ e ∈ pb.2, minuteKeyMs e.1 = e.1) →
      ∀ pb ∈ (contribs.foldl
          (fun acc pb => recordContribution acc pb.1 (pb.2 * elapsedSec) nowMs)
          L).buckets, ∀ e ∈ pb.2, minuteKeyMs e.1 = e.1 := by
  intro contribs
  induction contribs with
  | nil =>
    intro L h
    exact h
  | cons c rest ih =>
    intro L h
    simp only [List.foldl_cons]
    exact ih _ (aligned_addPlayerBucket h (minuteKeyMs_idem nowMs))

/-- Pruning keeps bucket keys aligned. -/
lemma aligned_prune {L : ContributionLedger} (nowMs : ℚ)
    (h : ∀ pb ∈ L.buckets, ∀ e ∈ pb.2, minuteKeyMs e.1 = e.1) :
    ∀ pb ∈ (pruneLedger L nowMs).buckets, ∀ e ∈ pb.2,
      minuteKeyMs e.1 = e.1 := by
  intro pb hpb e he
  simp only [pruneLedger, List.mem_map] at hpb
  obtain ⟨pb0, hpb0, rfl⟩ := hpb
  simp only at he
  exact h pb0 hpb0 e (List.mem_filter.mp he).1

/-- The boolean alignment check in propositional form. -/
lemma bucketsAligned_iff (L : ContributionLedger) :
    bucketsAligned L = true ↔
      ∀ pb ∈ L.buckets, ∀ e ∈ pb.2, minuteKeyMs e.1 = e.1 := by
  rw [bucketsAligned, List.all_eq_true]
  constructor
  · intro h pb hpb e he
    have h2 := h pb hpb
    rw [List.all_eq_true] at h2
    simpa using h2 e he
  · intro h pb hpb
    rw [List.all_eq_true]
    intro e he
    simpa using h pb hpb e he

/-- C3 (modelled from the spec; the repository sources contain no
contribution-ledger code): on a steady tick, each bundle's
`power * elapsed` is added both to the player's cumulative total and to
the current minute-aligned bucket; totals are monotonically
non-decreasing across ticks; after each tick every retained bucket key
lies within the trailing 6-hour retention window (pruned lazily, once
per tick); and bucket keys are minute-aligned. -/
theorem ledger_tick_correct :
    (∀ (L : ContributionLedger) (p : String) (amount nowMs : ℚ),
      lookupAssoc (recordContribution L p amount nowMs).totals p =
        lookupAssoc L.totals p + amount) ∧
    (∀ (L : ContributionLedger) (p : String) (amount nowMs : ℚ),
      lookupBucket (playerBuckets (recordContribution L p amount nowMs) p)
          (minuteKeyMs nowMs) =
        lookupBucket (playerBuckets L p) (minuteKeyMs nowMs) + amount) ∧
    (∀ (L : ContributionLedger) (nowMs elapsedSec : ℚ)
        (contribs : List (String × ℚ)) (p : String),
      0 ≤ elapsedSec → (∀ e ∈ contribs, 0 ≤ e.2) →
      lookupAssoc L.totals p ≤
        lookupAssoc (recordTickContributions L nowMs elapsedSec
          contribs).totals p) ∧
    (∀ (L : ContributionLedger) (nowMs elapsedSec : ℚ)
        (contribs : List (String × ℚ)),
      retentionOK (recordTickContributions L nowMs elapsedSec contribs)
        nowMs = true) ∧
    (∀ nowMs : ℚ, minuteKeyMs (minuteKeyMs nowMs) = minuteKeyMs nowMs) ∧
    (∀ (L : ContributionLedger) (nowMs elapsedSec : ℚ)
        (contribs : List (String × ℚ)),
      bucketsAligned L = true →
      bucketsAligned (recordTickContributions L nowMs elapsedSec contribs)
        = true) := by
  refine ⟨?_, ?_, ?_, ?_, minuteKeyMs_idem, ?_⟩
  · intro L p amount nowMs
    exact lookupAssoc_addAssoc_self L.totals p amount
  · intro L p amount nowMs
    exact playerBuckets_addPlayerBucket_self L.buckets p (minuteKeyMs nowMs)
      amount
  · intro L nowMs elapsedSec contribs p he hall
    exact totals_fold_le nowMs elapsedSec he contribs L p hall
  · intro L nowMs elapsedSec contribs
    exact retentionOK_pruneLedger _ nowMs
  · intro L nowMs elapsedSec contribs hal
    rw [bucketsAligned_iff] at hal ⊢
    exact aligned_prune nowMs (aligned_fold nowMs elapsedSec contribs L hal)

/-- An empty ledger. -/
def emptyLedger : ContributionLedger := { totals := [], buckets := [] }

/-- Witness for C3: a concrete tick crediting one bundle does not lower
that player's cumulative total. -/
theorem ledger_tick_correct_witness :
    lookupAssoc emptyLedger.totals "p1" ≤
      lookupAssoc (recordTickContributions emptyLedger 60000 10
        [("p1", 3)]).totals "p1" :=
  ledger_tick_correct.2.2.1 emptyLedger 60000 10 [("p1", 3)] "p1"
    (by norm_num)
    (by
      intro e he
      simp only [List.mem_singleton] at he
      subst he
      norm_num)

end WorldThreat
